import Mathlib

/-! # deploys-app/api: identifier encoding and request validation

A shallow embedding of `types.go`, `disk.go` and `serviceaccount.go`.

Conventions of the embedding:

* a Go `string` / `[]byte` is a `List Char` (a sequence of code points, i.e. valid UTF-8);
* an `int64` / `int` is an `Int`; the 64-bit range is the predicate `isInt64`;
* a method with a pointer receiver returns the new receiver together with its result;
* a Go `error` is an `Option GoError`, `none` being `nil`.

The standard-library functions the source calls (`strconv.FormatInt`, `strconv.ParseInt`,
`json.Marshal`, `json.Unmarshal`, `strings.TrimSpace`, `utf8.RuneCountInString`) are
embedded before the functions of the repository that use them; a `fmt.Sprintf` with a
constant format is written out as the concatenation it computes. The package-level
constants and patterns that the three files use without defining them are parameters
(`Consts`).
-/

namespace Api

/-! ## Errors -/

/-- The error values the embedded functions can return. -/
inductive GoError where
  /-- An error of `encoding/json`: a `*json.SyntaxError` or a `*json.UnmarshalTypeError`. -/
  | jsonErr
  /-- A `*strconv.NumError` wrapping `strconv.ErrSyntax`. -/
  | numSyntaxErr
  /-- A `*strconv.NumError` wrapping `strconv.ErrRange`. -/
  | numRangeErr
  /-- The aggregated validation error built by `WrapValidate`, carrying every message. -/
  | validateErr (msgs : List (List Char))
  /-- An ad hoc error built by `fmt.Errorf`, carrying one message. -/
  | errorf (msg : List Char)
  deriving DecidableEq, Repr

/-! ## `strconv` -/

/-- The range of `int64`. -/
def isInt64 (i : Int) : Prop := -(2 : Int) ^ 63 ≤ i ∧ i < (2 : Int) ^ 63

instance (i : Int) : Decidable (isInt64 i) := by unfold isInt64; infer_instance

/-- The table `digits` of `strconv/itoa.go`. -/
def digits : List Char := "0123456789abcdefghijklmnopqrstuvwxyz".toList

/-- The byte `digits[d]`. -/
def digitChar (d : Nat) : Char := digits.getD d '0'

/-- The digit loop of `formatBits` for base 10: writes the digits of `u` in front of `acc`,
least significant first; the first argument bounds the number of iterations by the size of
the output buffer. -/
def formatBitsLoop : Nat → Nat → List Char → List Char
  | 0, u, acc => digitChar u :: acc
  | fuel + 1, u, acc =>
    if u ≥ 10 then formatBitsLoop fuel (u / 10) (digitChar (u % 10) :: acc)
    else digitChar u :: acc

/-- The function `small` of `strconv/itoa.go`: the decimal text of `0 ≤ i < 100`. -/
def small (i : Nat) : List Char :=
  if i < 10 then [digitChar i] else [digitChar (i / 10), digitChar (i % 10)]

/-- `strconv.FormatInt(i, 10)`. The argument is converted to `uint64` and negated modulo
`2^64` when negative, as in `formatBits`. -/
def FormatInt (i : Int) : List Char :=
  if 0 ≤ i ∧ i < 100 then small i.toNat
  else
    let u0 : Nat := (i % (2 : Int) ^ 64).toNat
    let neg : Bool := decide (i < 0)
    let u : Nat := if neg then (2 ^ 64 - u0) % 2 ^ 64 else u0
    let s := formatBitsLoop 64 u []
    if neg then '-' :: s else s

/-- The value of a decimal digit byte, `none` for any other byte. -/
def digitVal (c : Char) : Option Nat :=
  if 48 ≤ c.toNat ∧ c.toNat ≤ 57 then some (c.toNat - 48) else none

/-- The loop of `strconv.ParseUint(s, 10, 64)` with accumulator `n`. -/
def parseUintLoop : Nat → List Char → Except GoError Nat
  | n, [] => .ok n
  | n, c :: rest =>
    match digitVal c with
    | none => .error .numSyntaxErr
    | some d =>
      if n ≥ (2 ^ 64 - 1) / 10 + 1 then .error .numRangeErr
      else
        let n10 := n * 10
        let n1 := (n10 + d) % 2 ^ 64
        if n1 < n10 ∨ n1 > 2 ^ 64 - 1 then .error .numRangeErr
        else parseUintLoop n1 rest

/-- `strconv.ParseUint(s, 10, 64)`. -/
def ParseUint (s : List Char) : Except GoError Nat :=
  if s = [] then .error .numSyntaxErr else parseUintLoop 0 s

/-- `strconv.ParseInt(s, 10, 64)`. A range error of `ParseUint` yields the maximal
unsigned value, which the cutoff test below turns into a range error again. -/
def ParseInt (s : List Char) : Except GoError Int :=
  match s with
  | [] => .error .numSyntaxErr
  | c :: rest =>
    let neg : Bool := decide (c = '-')
    let body : List Char := if c = '+' ∨ c = '-' then rest else s
    match ParseUint body with
    | .error .numRangeErr => .error .numRangeErr
    | .error e => .error e
    | .ok un =>
      if ¬ neg ∧ un ≥ 2 ^ 63 then .error .numRangeErr
      else if neg ∧ un > 2 ^ 63 then .error .numRangeErr
      else .ok (if neg then -(un : Int) else (un : Int))

/-! ## `encoding/json` -/

/-- The quotation mark. -/
def quoteChar : Char := Char.ofNat 34

/-- The reverse solidus. -/
def backslashChar : Char := Char.ofNat 92

/-- The hexadecimal digits used by the encoder. -/
def hexChar (d : Nat) : Char := "0123456789abcdef".toList.getD d '0'

/-- One code point of a string as `json.Marshal` writes it (HTML escaping on). -/
def escapeChar (c : Char) : List Char :=
  if c = quoteChar ∨ c = backslashChar then [backslashChar, c]
  else if c.toNat = 8 then [backslashChar, 'b']
  else if c.toNat = 12 then [backslashChar, 'f']
  else if c.toNat = 10 then [backslashChar, 'n']
  else if c.toNat = 13 then [backslashChar, 'r']
  else if c.toNat = 9 then [backslashChar, 't']
  else if c.toNat < 32 ∨ c = '<' ∨ c = '>' ∨ c = '&' then
    [backslashChar, 'u', '0', '0', hexChar (c.toNat / 16), hexChar (c.toNat % 16)]
  else if c.toNat = 0x2028 ∨ c.toNat = 0x2029 then
    [backslashChar, 'u', '2', '0', '2', hexChar (c.toNat % 16)]
  else [c]

/-- `json.Marshal(s)` for a string `s`; it cannot fail. -/
def jsonMarshalString (s : List Char) : List Char × Option GoError :=
  (quoteChar :: (s.flatMap escapeChar ++ [quoteChar]), none)

/-- JSON white space. -/
def isJsonSpace (c : Char) : Bool :=
  c.toNat = 32 || c.toNat = 9 || c.toNat = 13 || c.toNat = 10

/-- The value of a hexadecimal digit. -/
def hexVal (c : Char) : Option Nat :=
  if 48 ≤ c.toNat ∧ c.toNat ≤ 57 then some (c.toNat - 48)
  else if 97 ≤ c.toNat ∧ c.toNat ≤ 102 then some (c.toNat - 87)
  else if 65 ≤ c.toNat ∧ c.toNat ≤ 70 then some (c.toNat - 55)
  else none

/-- The function `getu4` on the four bytes after a `\u`. -/
def hex4 (a b c d : Char) : Option Nat :=
  match hexVal a, hexVal b, hexVal c, hexVal d with
  | some x, some y, some z, some w => some (((x * 16 + y) * 16 + z) * 16 + w)
  | _, _, _, _ => none

/-- `utf16.IsSurrogate`. -/
def isSurrogate (r : Nat) : Bool := 0xd800 ≤ r && r < 0xe000

/-- `utf16.DecodeRune`; `0xFFFD` is `unicode.ReplacementChar`. -/
def decodeRune (r1 r2 : Nat) : Nat :=
  if 0xd800 ≤ r1 ∧ r1 < 0xdc00 ∧ 0xdc00 ≤ r2 ∧ r2 < 0xe000 then
    (r1 - 0xd800) * 1024 + (r2 - 0xdc00) + 0x10000
  else 0xFFFD

/-- The character a one-letter escape stands for. -/
def simpleEscape (e : Char) : Option Char :=
  if e = quoteChar ∨ e = backslashChar ∨ e = '/' then some e
  else if e = 'b' then some (Char.ofNat 8)
  else if e = 'f' then some (Char.ofNat 12)
  else if e = 'n' then some (Char.ofNat 10)
  else if e = 'r' then some (Char.ofNat 13)
  else if e = 't' then some (Char.ofNat 9)
  else none

/-- Puts a decoded character in front of the decoded remainder. -/
def consDecoded (c : Char) : Option (List Char × List Char) → Option (List Char × List Char)
  | none => none
  | some (s, rest) => some (c :: s, rest)

/-- Scans and unquotes a JSON string literal whose opening quote has been consumed:
the decoded text and the input after the closing quote, or `none` when the literal is
malformed (the scanner of `encoding/json` followed by `unquote`). The first argument
bounds the number of steps; every step consumes input, so the length of the input is
enough. -/
def unquoteLoop : Nat → List Char → Option (List Char × List Char)
  | 0, _ => none
  | _ + 1, [] => none
  | fuel + 1, c :: rest =>
    if c = quoteChar then some ([], rest)
    else if c = backslashChar then
      match rest with
      | [] => none
      | e :: rest1 =>
        if e = 'u' then
          match rest1 with
          | h1 :: h2 :: h3 :: h4 :: rest2 =>
            match hex4 h1 h2 h3 h4 with
            | none => none
            | some rr =>
              if isSurrogate rr then
                match rest2 with
                | b1 :: u1 :: g1 :: g2 :: g3 :: g4 :: rest3 =>
                  match (if b1 = backslashChar ∧ u1 = 'u' then hex4 g1 g2 g3 g4 else none) with
                  | some rr1 =>
                    if decodeRune rr rr1 ≠ 0xFFFD then
                      consDecoded (Char.ofNat (decodeRune rr rr1)) (unquoteLoop fuel rest3)
                    else consDecoded (Char.ofNat 0xFFFD) (unquoteLoop fuel rest2)
                  | none => consDecoded (Char.ofNat 0xFFFD) (unquoteLoop fuel rest2)
                | _ => consDecoded (Char.ofNat 0xFFFD) (unquoteLoop fuel rest2)
              else consDecoded (Char.ofNat rr) (unquoteLoop fuel rest2)
          | _ => none
        else
          match simpleEscape e with
          | some x => consDecoded x (unquoteLoop fuel rest1)
          | none => none
    else if c.toNat < 32 then none
    else consDecoded c (unquoteLoop fuel rest)

/-- The string literal scanner run on a whole input. -/
def unquote (b : List Char) : Option (List Char × List Char) := unquoteLoop (b.length + 1) b

/-- The bytes up to the first one that is not a decimal digit, and the rest. -/
def scanDigits (b : List Char) : List Char × List Char :=
  (b.takeWhile (fun c => decide (48 ≤ c.toNat ∧ c.toNat ≤ 57)),
   b.dropWhile (fun c => decide (48 ≤ c.toNat ∧ c.toNat ≤ 57)))

/-- The optional exponent of a JSON number after the literal `lit` read so far. -/
def scanExp (lit b : List Char) : Option (List Char × List Char) :=
  match b with
  | e :: rest =>
    if e = 'e' ∨ e = 'E' then
      let signed : List Char × List Char :=
        match rest with
        | s :: rest1 => if s = '+' ∨ s = '-' then ([s], rest1) else ([], rest)
        | [] => ([], rest)
      let ds := scanDigits signed.2
      if ds.1 = [] then none else some (lit ++ e :: signed.1 ++ ds.1, ds.2)
    else some (lit, b)
  | [] => some (lit, b)

/-- The optional fraction of a JSON number, followed by the optional exponent. -/
def scanFrac (lit b : List Char) : Option (List Char × List Char) :=
  match b with
  | d :: rest =>
    if d = '.' then
      let ds := scanDigits rest
      if ds.1 = [] then none else scanExp (lit ++ d :: ds.1) ds.2
    else scanExp lit b
  | [] => some (lit, b)

/-- The digits of the integer part of a JSON number after the sign `sign`: a single `0`
or a digit from 1 to 9 followed by digits. -/
def scanIntPart (sign b : List Char) : Option (List Char × List Char) :=
  match b with
  | c :: rest =>
    if c = '0' then scanFrac (sign ++ [c]) rest
    else if 49 ≤ c.toNat ∧ c.toNat ≤ 57 then
      let ds := scanDigits rest
      scanFrac (sign ++ c :: ds.1) ds.2
    else none
  | [] => none

/-- Scans a JSON number literal at the start of `b`: the literal and the input after it,
or `none` when `b` does not start with a well-formed number. -/
def scanNumber (b : List Char) : Option (List Char × List Char) :=
  match b with
  | c :: rest => if c = '-' then scanIntPart [c] rest else scanIntPart [] b
  | [] => none

/-- Drops leading JSON white space. -/
def skipSpace (b : List Char) : List Char := b.dropWhile isJsonSpace

/-- `json.Unmarshal(b, &s)` for a `string` variable holding `s`: the new value of the
variable, or the error. The input must be one JSON value surrounded by optional white
space; a string literal is stored unquoted, `null` leaves the variable as it is, and any
other value or any malformed input is an error. -/
def jsonUnmarshalString (b : List Char) (s : List Char) : Except GoError (List Char) :=
  match skipSpace b with
  | c :: rest =>
    if c = quoteChar then
      match unquote rest with
      | some (t, after) => if skipSpace after = [] then .ok t else .error .jsonErr
      | none => .error .jsonErr
    else if c :: rest.take 3 = "null".toList ∧ skipSpace (rest.drop 3) = [] then .ok s
    else .error .jsonErr
  | [] => .error .jsonErr

/-- `json.Unmarshal(b, &i)` for an `int64` variable holding `i`: the new value of the
variable, or the error. A number literal is handed to `strconv.ParseInt` (a literal with
a fraction or an exponent, or one out of range, is an `UnmarshalTypeError`), `null`
leaves the variable as it is, and any other value or any malformed input is an error. -/
def jsonUnmarshalInt64 (b : List Char) (i : Int) : Except GoError Int :=
  match skipSpace b with
  | c :: rest =>
    if c = '-' ∨ (48 ≤ c.toNat ∧ c.toNat ≤ 57) then
      match scanNumber (c :: rest) with
      | some (lit, after) =>
        if skipSpace after = [] then
          match ParseInt lit with
          | .ok n => .ok n
          | .error _ => .error .jsonErr
        else .error .jsonErr
      | none => .error .jsonErr
    else if c :: rest.take 3 = "null".toList ∧ skipSpace (rest.drop 3) = [] then .ok i
    else .error .jsonErr
  | [] => .error .jsonErr

/-! ## `types.go`: the identifier -/

/-- The type `ID`, an `int64`. -/
abbrev ID := Int

/-- `func (id ID) String() string`. -/
def ID.String (id : ID) : List Char := FormatInt id

/-- `func (id ID) MarshalJSON() ([]byte, error)`. -/
def ID.MarshalJSON (id : ID) : List Char × Option GoError := jsonMarshalString (ID.String id)

/-- `func (id *ID) UnmarshalJSON(b []byte) error`: the receiver after the call and the
error returned. The first argument is the value the receiver holds before the call. -/
def ID.UnmarshalJSON (_id : ID) (b : List Char) : ID × Option GoError :=
  let id0 : ID := 0
  match b with
  | [] => (id0, none)
  | c :: _ =>
    if c = quoteChar then
      match jsonUnmarshalString b [] with
      | .error err => (id0, some err)
      | .ok s =>
        if s = [] then (id0, none)
        else
          match ParseInt s with
          | .error err => (id0, some err)
          | .ok i => (i, none)
    else
      match jsonUnmarshalInt64 b 0 with
      | .error err => (id0, some err)
      | .ok i => (i, none)

/-! ## `strings`, `unicode/utf8`, `fmt` -/

/-- `unicode.IsSpace`: the code points with the White_Space property. -/
def isSpace (c : Char) : Bool :=
  c.toNat = 9 || c.toNat = 10 || c.toNat = 11 || c.toNat = 12 || c.toNat = 13 ||
  c.toNat = 32 || c.toNat = 0x85 || c.toNat = 0xA0 || c.toNat = 0x1680 ||
  (0x2000 ≤ c.toNat && c.toNat ≤ 0x200a) || c.toNat = 0x2028 || c.toNat = 0x2029 ||
  c.toNat = 0x202f || c.toNat = 0x205f || c.toNat = 0x3000

/-- `strings.TrimSpace`: the text without its leading and its trailing white space. -/
def TrimSpace (s : List Char) : List Char :=
  ((s.dropWhile isSpace).reverse.dropWhile isSpace).reverse

/-- `utf8.RuneCountInString`, as an `int`. -/
def RuneCountInString (s : List Char) : Int := (s.length : Int)

/-! ## `github.com/moonrhythm/validator` -/

/-- The type `validator.Validator`: the messages accumulated so far, oldest first. -/
structure Validator where
  /-- The field `errors`. -/
  errors : List (List Char)
  deriving DecidableEq, Repr

/-- `validator.New()`. -/
def Validator.New : Validator := ⟨[]⟩

/-- `v.Must(ok, msg)`: records `msg` when `ok` is false; returns the accumulator and `ok`.
`v.Mustf(ok, format, args...)` is `Must` with the message `fmt.Sprintf(format, args...)`;
a `%d` of a call site is written out as `FormatInt` of its argument and a `%s` as the
argument. -/
def Validator.Must (v : Validator) (ok : Bool) (msg : List Char) : Validator × Bool :=
  if ok then (v, true) else (⟨v.errors ++ [msg]⟩, false)

/-! ## Constants and helpers of the package defined outside the three files -/

/-- The package-level names the three files use without defining them, taken as
parameters: the compiled patterns (as their `MatchString`), their source texts, and the
numeric constants. -/
structure Consts where
  /-- `ReValidName.MatchString`. -/
  ReValidName : List Char → Bool
  /-- `ReValidNameStr`. -/
  ReValidNameStr : List Char
  /-- `ReValidSID.MatchString`. -/
  ReValidSID : List Char → Bool
  /-- `ReValidSIDStr`. -/
  ReValidSIDStr : List Char
  /-- `MinNameLength`. -/
  MinNameLength : Int
  /-- `MaxNameLength`. -/
  MaxNameLength : Int
  /-- `DiskMaxSize`. -/
  DiskMaxSize : Int

/-- Modelled from the spec: `WrapValidate` is not in the three files; the spec describes
it as the wrapper that turns an accumulated failure set into a single reportable error,
or no error if the set is empty. -/
def WrapValidate (v : Validator) : Option GoError :=
  if v.errors = [] then none else some (.validateErr v.errors)

/-- The messages carried by an aggregated validation error; no message for `nil` or for
an error of another kind. -/
def validationMessages : Option GoError → List (List Char)
  | some (.validateErr msgs) => msgs
  | _ => []

/-! ## `disk.go` -/

/-- The type `DiskCreate`. -/
structure DiskCreate where
  /-- The field `Location`. -/
  Location : List Char
  /-- The field `Project`. -/
  Project : List Char
  /-- The field `Name`. -/
  Name : List Char
  /-- The field `Size`. -/
  Size : Int
  deriving DecidableEq, Repr

/-- `func (m *DiskCreate) Valid() error`: the structure after the call and the error. -/
def DiskCreate.Valid (k : Consts) (m : DiskCreate) : DiskCreate × Option GoError :=
  let m : DiskCreate := { m with Name := TrimSpace m.Name }
  let v := Validator.New
  let v := (v.Must (decide (m.Location ≠ [])) "location required".toList).1
  let v := (v.Must (decide (m.Project ≠ [])) "project required".toList).1
  let v := (v.Must (k.ReValidName m.Name) ("name invalid ".toList ++ k.ReValidNameStr)).1
  let cnt := RuneCountInString m.Name
  let v := (v.Must (decide (cnt ≥ k.MinNameLength ∧ cnt ≤ k.MaxNameLength))
    ("name must have length between ".toList ++ FormatInt k.MinNameLength ++ "-".toList ++
      FormatInt k.MaxNameLength ++ " characters".toList)).1
  let v := (v.Must (decide (m.Size ≥ 1)) "minimum disk size 1 Gi".toList).1
  let v := (v.Must (decide (m.Size ≤ k.DiskMaxSize))
    ("maximum disk size ".toList ++ FormatInt k.DiskMaxSize ++ " Gi".toList)).1
  (m, WrapValidate v)

/-- The type `DiskUpdate`. -/
structure DiskUpdate where
  /-- The field `Location`. -/
  Location : List Char
  /-- The field `Project`. -/
  Project : List Char
  /-- The field `Name`. -/
  Name : List Char
  /-- The field `Size`. -/
  Size : Int
  deriving DecidableEq, Repr

/-- `func (m *DiskUpdate) Valid() error`: the structure after the call and the error. -/
def DiskUpdate.Valid (k : Consts) (m : DiskUpdate) : DiskUpdate × Option GoError :=
  let m : DiskUpdate := { m with Name := TrimSpace m.Name }
  let v := Validator.New
  let v := (v.Must (decide (m.Location ≠ [])) "location required".toList).1
  let v := (v.Must (decide (m.Project ≠ [])) "project required".toList).1
  let v := (v.Must (k.ReValidName m.Name) ("name invalid ".toList ++ k.ReValidNameStr)).1
  let cnt := RuneCountInString m.Name
  let v := (v.Must (decide (cnt ≥ k.MinNameLength ∧ cnt ≤ k.MaxNameLength))
    ("name must have length between ".toList ++ FormatInt k.MinNameLength ++ "-".toList ++
      FormatInt k.MaxNameLength ++ " characters".toList)).1
  let v := (v.Must (decide (m.Size ≥ 1)) "minimum disk size 1 Gi".toList).1
  let v := (v.Must (decide (m.Size ≤ k.DiskMaxSize))
    ("maximum disk size ".toList ++ FormatInt k.DiskMaxSize ++ " Gi".toList)).1
  (m, WrapValidate v)

/-- The type `DiskGet`. -/
structure DiskGet where
  /-- The field `Location`. -/
  Location : List Char
  /-- The field `Project`. -/
  Project : List Char
  /-- The field `Name`. -/
  Name : List Char
  deriving DecidableEq, Repr

/-- `func (m *DiskGet) Valid() error`: the structure after the call and the error. -/
def DiskGet.Valid (m : DiskGet) : DiskGet × Option GoError :=
  let v := Validator.New
  let v := (v.Must (decide (m.Location ≠ [])) "location required".toList).1
  let v := (v.Must (decide (m.Project ≠ [])) "project required".toList).1
  let v := (v.Must (decide (m.Name ≠ [])) "name required".toList).1
  (m, WrapValidate v)

/-- The type `DiskDelete`. -/
structure DiskDelete where
  /-- The field `Location`. -/
  Location : List Char
  /-- The field `Project`. -/
  Project : List Char
  /-- The field `Name`. -/
  Name : List Char
  deriving DecidableEq, Repr

/-- `func (m *DiskDelete) Valid() error`: the structure after the call and the error. -/
def DiskDelete.Valid (k : Consts) (m : DiskDelete) : DiskDelete × Option GoError :=
  let m : DiskDelete := { m with Name := TrimSpace m.Name }
  let v := Validator.New
  let v := (v.Must (decide (m.Location ≠ [])) "location required".toList).1
  let v := (v.Must (decide (m.Project ≠ [])) "project required".toList).1
  let v := (v.Must (k.ReValidName m.Name) ("name invalid ".toList ++ k.ReValidNameStr)).1
  let cnt := RuneCountInString m.Name
  if cnt > k.MaxNameLength then (m, some (.errorf "name invalid".toList))
  else (m, WrapValidate v)

/-- The variable `allDiskMetricsTimeRange`. -/
def allDiskMetricsTimeRange : List (List Char) :=
  ["1h".toList, "6h".toList, "12h".toList, "1d".toList, "2d".toList, "7d".toList,
   "30d".toList]

/-- The assignment `m[key] = val` on a map kept as an association list. -/
def mapAssign (m : List (List Char × Bool)) (key : List Char) (val : Bool) :
    List (List Char × Bool) :=
  (key, val) :: m.filter (fun e => decide (e.1 ≠ key))

/-- The expression `m[key]` on a `map[...]bool`: `false` when the key is absent. -/
def mapIndex (m : List (List Char × Bool)) (key : List Char) : Bool :=
  match m.find? (fun e => decide (e.1 = key)) with
  | some e => e.2
  | none => false

/-- The variable `validDiskMetricsTimeRange`: the map filled by the loop over
`allDiskMetricsTimeRange`. -/
def validDiskMetricsTimeRange : List (List Char × Bool) :=
  allDiskMetricsTimeRange.foldl (fun m t => mapAssign m t true) []

/-- The type `DiskMetrics`. -/
structure DiskMetrics where
  /-- The field `Location`. -/
  Location : List Char
  /-- The field `Project`. -/
  Project : List Char
  /-- The field `Name`. -/
  Name : List Char
  /-- The field `TimeRange`. -/
  TimeRange : List Char
  deriving DecidableEq, Repr

/-- `func (m *DiskMetrics) Valid() error`: the structure after the call and the error. -/
def DiskMetrics.Valid (k : Consts) (m : DiskMetrics) : DiskMetrics × Option GoError :=
  let m : DiskMetrics := { m with Name := TrimSpace m.Name }
  let v := Validator.New
  let v := (v.Must (decide (m.Location ≠ [])) "location required".toList).1
  let v := (v.Must (k.ReValidName m.Name) ("name invalid ".toList ++ k.ReValidNameStr)).1
  let v := (v.Must (decide (RuneCountInString m.Name ≤ k.MaxNameLength))
    ("name must have length less then ".toList ++ FormatInt k.MaxNameLength ++
      " characters".toList)).1
  let v := (v.Must (decide (m.Project ≠ [])) "project required".toList).1
  let v := (v.Must (mapIndex validDiskMetricsTimeRange m.TimeRange)
    "timeRange invalid".toList).1
  (m, WrapValidate v)

/-! ## `serviceaccount.go` -/

/-- The type `ServiceAccountCreate`. -/
structure ServiceAccountCreate where
  /-- The field `Project`. -/
  Project : List Char
  /-- The field `SID`. -/
  SID : List Char
  /-- The field `Name`. -/
  Name : List Char
  /-- The field `Description`. -/
  Description : List Char
  deriving DecidableEq, Repr

/-- `func (m *ServiceAccountCreate) Valid() error`: the structure after the call and the
error. -/
def ServiceAccountCreate.Valid (k : Consts) (m : ServiceAccountCreate) :
    ServiceAccountCreate × Option GoError :=
  let m : ServiceAccountCreate :=
    { m with SID := TrimSpace m.SID, Name := TrimSpace m.Name,
             Description := TrimSpace m.Description }
  let v := Validator.New
  let v := (v.Must (decide (m.Project ≠ [])) "project required".toList).1
  let r := v.Must (decide (m.SID ≠ [])) "sid required".toList
  let v :=
    if r.2 then
      let v := (r.1.Must (k.ReValidSID m.SID) ("sid invalid ".toList ++ k.ReValidSIDStr)).1
      let cnt := RuneCountInString m.SID
      (v.Must (decide (cnt ≥ 3 ∧ cnt ≤ 20))
        "sid must have length between 3-20 characters".toList).1
    else r.1
  let cnt := RuneCountInString m.Name
  let v := (v.Must (decide (cnt ≥ k.MinNameLength ∧ cnt ≤ 60))
    ("name must have length between ".toList ++ FormatInt k.MinNameLength ++ "-".toList ++
      FormatInt 60 ++ " characters".toList)).1
  (m, WrapValidate v)

/-- The type `ServiceAccountUpdate`. -/
structure ServiceAccountUpdate where
  /-- The field `Project`. -/
  Project : List Char
  /-- The field `SID`. -/
  SID : List Char
  /-- The field `Name`. -/
  Name : List Char
  /-- The field `Description`. -/
  Description : List Char
  deriving DecidableEq, Repr

/-- `func (m *ServiceAccountUpdate) Valid() error`: the structure after the call and the
error. -/
def ServiceAccountUpdate.Valid (k : Consts) (m : ServiceAccountUpdate) :
    ServiceAccountUpdate × Option GoError :=
  let m : ServiceAccountUpdate :=
    { m with SID := TrimSpace m.SID, Name := TrimSpace m.Name,
             Description := TrimSpace m.Description }
  let v := Validator.New
  let v := (v.Must (decide (m.Project ≠ [])) "project required".toList).1
  let r := v.Must (decide (m.SID ≠ [])) "sid required".toList
  let v :=
    if r.2 then
      let v := (r.1.Must (k.ReValidSID m.SID) ("sid invalid ".toList ++ k.ReValidSIDStr)).1
      let cnt := RuneCountInString m.SID
      (v.Must (decide (cnt ≥ 3 ∧ cnt ≤ 20))
        "sid must have length between 3-20 characters".toList).1
    else r.1
  let cnt := RuneCountInString m.Name
  let v := (v.Must (decide (cnt ≥ k.MinNameLength ∧ cnt ≤ 60))
    ("name must have length between ".toList ++ FormatInt k.MinNameLength ++ "-".toList ++
      FormatInt 60 ++ " characters".toList)).1
  (m, WrapValidate v)

/-! ## `types.go`: the age of a timestamp -/

/-- `time.Second`, in nanoseconds. -/
def Second : Int := 1000000000

/-- `time.Minute`. -/
def Minute : Int := 60 * Second

/-- `time.Hour`. -/
def Hour : Int := 60 * Minute

/-- `func age(t time.Time) string`, as a function of the elapsed duration
`d := time.Since(t)`, a `time.Duration` in nanoseconds. The division of Go truncates
towards zero; `fmt.Sprintf` with the verb `%d` prints the decimal text of the count. -/
def age (d : Int) : List Char :=
  if d.tdiv (24 * Hour) > 0 then FormatInt (d.tdiv (24 * Hour)) ++ "d".toList
  else if d.tdiv (24 * Hour) > 0 then FormatInt (d.tdiv (24 * Hour)) ++ "h".toList
  else if d.tdiv Minute > 0 then FormatInt (d.tdiv Minute) ++ "m".toList
  else FormatInt (d.tdiv Second) ++ "s".toList

/-! ## An instance of the constants -/

/-- A lower-case letter or a digit. -/
def isLowerAlnum (c : Char) : Bool :=
  (97 ≤ c.toNat && c.toNat ≤ 122) || (48 ≤ c.toNat && c.toNat ≤ 57)

/-- A matcher for the pattern `^[a-z][a-z0-9-]*[a-z0-9]$`. -/
def exampleMatch (s : List Char) : Bool :=
  match s with
  | [] => false
  | c :: rest =>
    (97 ≤ c.toNat && c.toNat ≤ 122) && rest.all (fun x => isLowerAlnum x || x = '-') &&
    (match rest.getLast? with
     | some z => isLowerAlnum z
     | none => false)

/-- An instance of the package constants, used to run the functions on concrete inputs.
The three files do not define the constants, so the values are illustrative. -/
def exampleConsts : Consts where
  ReValidName := exampleMatch
  ReValidNameStr := "^[a-z][a-z0-9-]*[a-z0-9]$".toList
  ReValidSID := exampleMatch
  ReValidSIDStr := "^[a-z][a-z0-9-]*[a-z0-9]$".toList
  MinNameLength := 3
  MaxNameLength := 25
  DiskMaxSize := 100

/-- An instance of the package constants whose name pattern, `^ a$`, matches a single
name, which starts with a space. -/
def spacePatternConsts : Consts where
  ReValidName := fun s => decide (s = " a".toList)
  ReValidNameStr := "^ a$".toList
  ReValidSID := exampleMatch
  ReValidSIDStr := "^[a-z][a-z0-9-]*[a-z0-9]$".toList
  MinNameLength := 3
  MaxNameLength := 25
  DiskMaxSize := 100

/-! ## Specification vocabulary for decimal text -/

/-- A decimal digit byte. -/
def isDecDigit (c : Char) : Prop := 48 ≤ c.toNat ∧ c.toNat ≤ 57

instance (c : Char) : Decidable (isDecDigit c) := by unfold isDecDigit; infer_instance

/-- The positional value of a digit string read after the value `n`. -/
def decFold (n : Nat) (ds : List Char) : Nat := ds.foldl (fun m c => m * 10 + (c.toNat - 48)) n

/-- The digits of a decimal text: the text without its leading minus sign, if any. -/
def stripSign : List Char → List Char
  | c :: rest => if c = '-' then rest else c :: rest
  | [] => []

/-- The canonical base-10 form of `i`: digits only, after a minus sign present exactly when
`i` is negative, no leading zero unless the digits are just `0`, and of value `|i|`. -/
def CanonicalDecimal (i : Int) (s : List Char) : Prop :=
  (s.head? = some '-' ↔ i < 0) ∧
  stripSign s ≠ [] ∧
  (∀ c ∈ stripSign s, isDecDigit c) ∧
  ((stripSign s).head? = some '0' → stripSign s = ['0']) ∧
  decFold 0 (stripSign s) = i.natAbs

instance (i : Int) (s : List Char) : Decidable (CanonicalDecimal i s) := by
  unfold CanonicalDecimal; infer_instance

/-! ## Specification vocabulary for validation -/

/-- The messages of the rules that fail, in rule order; a rule is its outcome (`true`
when it holds) and its message. -/
def failingMessages (rules : List (Bool × List Char)) : List (List Char) :=
  (rules.filter (fun r => !r.1)).map (fun r => r.2)

/-- The six rules the spec states for `DiskCreate`, in order, read on the trimmed name:
location required, project required, name pattern, name length, minimum size, maximum
size. -/
def DiskCreate.specRules (k : Consts) (m : DiskCreate) : List (Bool × List Char) :=
  [(decide (m.Location ≠ []), "location required".toList),
   (decide (m.Project ≠ []), "project required".toList),
   (k.ReValidName (TrimSpace m.Name), "name invalid ".toList ++ k.ReValidNameStr),
   (decide (k.MinNameLength ≤ ((TrimSpace m.Name).length : Int) ∧
      ((TrimSpace m.Name).length : Int) ≤ k.MaxNameLength),
    "name must have length between ".toList ++ FormatInt k.MinNameLength ++ "-".toList ++
      FormatInt k.MaxNameLength ++ " characters".toList),
   (decide (1 ≤ m.Size), "minimum disk size 1 Gi".toList),
   (decide (m.Size ≤ k.DiskMaxSize),
    "maximum disk size ".toList ++ FormatInt k.DiskMaxSize ++ " Gi".toList)]

/-- The seven tokens of the metrics time range. -/
def timeRangeTokens : List (List Char) :=
  ["1h".toList, "6h".toList, "12h".toList, "1d".toList, "2d".toList, "7d".toList,
   "30d".toList]

/-! # Theorems -/

/-! ## Decimal formatting and parsing -/

theorem char_eq_of_toNat_eq {c d : Char} (h : c.toNat = d.toNat) : c = d := by
  apply Char.ext
  apply UInt32.ext
  simpa [Char.toNat] using h

theorem digitChar_toNat {d : Nat} (h : d < 10) : (digitChar d).toNat = 48 + d := by
  interval_cases d <;> rfl

theorem digitChar_isDecDigit {d : Nat} (h : d < 10) : isDecDigit (digitChar d) := by
  unfold isDecDigit
  rw [digitChar_toNat h]
  omega

theorem decFold_nil (n : Nat) : decFold n [] = n := rfl

theorem decFold_cons (n : Nat) (c : Char) (ds : List Char) :
    decFold n (c :: ds) = decFold (n * 10 + (c.toNat - 48)) ds := rfl

theorem decFold_append (n : Nat) (xs ys : List Char) :
    decFold n (xs ++ ys) = decFold (decFold n xs) ys := by
  simp [decFold, List.foldl_append]

theorem le_decFold (n : Nat) (ds : List Char) : n ≤ decFold n ds := by
  induction ds generalizing n with
  | nil => simp [decFold_nil]
  | cons c ds ih =>
    rw [decFold_cons]
    exact le_trans (by omega) (ih _)

theorem parseUintLoop_digits (ds : List Char) (n : Nat) (hd : ∀ c ∈ ds, isDecDigit c)
    (hb : decFold n ds < 2 ^ 64) : parseUintLoop n ds = .ok (decFold n ds) := by
  induction ds generalizing n with
  | nil => rfl
  | cons c ds ih =>
    have hc : isDecDigit c := hd c (List.mem_cons_self _ _)
    have hds : ∀ x ∈ ds, isDecDigit x := fun x hx => hd x (List.mem_cons_of_mem _ hx)
    rw [decFold_cons] at hb ⊢
    have hle := le_decFold (n * 10 + (c.toNat - 48)) ds
    unfold isDecDigit at hc
    have hv : digitVal c = some (c.toNat - 48) := by simp [digitVal, hc]
    have hlt : n * 10 + (c.toNat - 48) < 2 ^ 64 := lt_of_le_of_lt hle hb
    have hmod : (n * 10 + (c.toNat - 48)) % 2 ^ 64 = n * 10 + (c.toNat - 48) :=
      Nat.mod_eq_of_lt hlt
    have h1 : ¬ n ≥ (2 ^ 64 - 1) / 10 + 1 := by
      norm_num at hlt ⊢
      omega
    have h2 : ¬ (n * 10 + (c.toNat - 48) < n * 10 ∨ n * 10 + (c.toNat - 48) > 2 ^ 64 - 1) := by
      norm_num at hlt ⊢
      omega
    simp only [parseUintLoop, hv, hmod, h1, h2, if_false]
    exact ih _ hds hb

theorem formatBitsLoop_acc (fuel u : Nat) (acc : List Char) :
    formatBitsLoop fuel u acc = formatBitsLoop fuel u [] ++ acc := by
  induction fuel generalizing u acc with
  | zero => simp [formatBitsLoop]
  | succ k ih =>
    unfold formatBitsLoop
    split
    · rw [ih (u / 10) (digitChar (u % 10) :: acc), ih (u / 10) [digitChar (u % 10)]]
      simp
    · simp

theorem formatBitsLoop_spec (fuel u : Nat) (hu : u < 10 ^ (fuel + 1)) :
    (∀ c ∈ formatBitsLoop fuel u [], isDecDigit c) ∧
    (formatBitsLoop fuel u []).head? ≠ none ∧
    (u ≠ 0 → (formatBitsLoop fuel u []).head? ≠ some '0') ∧
    (u = 0 → formatBitsLoop fuel u [] = ['0']) ∧
    ∀ n, decFold n (formatBitsLoop fuel u []) = n * 10 ^ (formatBitsLoop fuel u []).length + u := by
  induction fuel generalizing u with
  | zero =>
    have h10 : u < 10 := by simpa using hu
    have hz : (digitChar u).toNat = 48 + u := digitChar_toNat h10
    refine ⟨?_, ?_, ?_, ?_, ?_⟩
    · intro c hc
      simp only [formatBitsLoop, List.mem_singleton] at hc
      subst hc
      exact digitChar_isDecDigit h10
    · simp [formatBitsLoop]
    · intro h0 h
      simp only [formatBitsLoop, List.head?_cons, Option.some.injEq] at h
      rw [h] at hz
      have : ('0' : Char).toNat = 48 := rfl
      omega
    · intro h0
      subst h0
      rfl
    · intro n
      simp [formatBitsLoop, decFold, hz]
  | succ k ih =>
    by_cases hge : u ≥ 10
    · have hq : u / 10 < 10 ^ (k + 1) := by
        rw [pow_succ] at hu
        omega
      obtain ⟨a, b, c, _, e⟩ := ih (u / 10) hq
      have hr : u % 10 < 10 := Nat.mod_lt _ (by norm_num)
      have hrz : (digitChar (u % 10)).toNat = 48 + u % 10 := digitChar_toNat hr
      have heq : formatBitsLoop (k + 1) u [] = formatBitsLoop k (u / 10) [] ++ [digitChar (u % 10)] := by
        conv_lhs => unfold formatBitsLoop
        rw [if_pos hge, formatBitsLoop_acc]
      rw [heq]
      refine ⟨?_, ?_, ?_, ?_, ?_⟩
      · intro x hx
        rcases List.mem_append.mp hx with h | h
        · exact a x h
        · simp only [List.mem_singleton] at h
          subst h
          exact digitChar_isDecDigit hr
      · cases hF : formatBitsLoop k (u / 10) [] with
        | nil => simp [hF] at b
        | cons x xs => simp
      · intro _
        have hq0 : u / 10 ≠ 0 := by omega
        have := c hq0
        cases hF : formatBitsLoop k (u / 10) [] with
        | nil => simp [hF] at b
        | cons x xs => simpa [hF] using this
      · intro h0
        omega
      · intro n
        rw [decFold_append, e n, decFold_cons, decFold_nil, hrz, List.length_append,
          List.length_singleton, pow_succ]
        have := Nat.div_add_mod u 10
        have e1 : 48 + u % 10 - 48 = u % 10 := by omega
        rw [e1]
        nlinarith [this]
    · have h10 : u < 10 := by omega
      have hz : (digitChar u).toNat = 48 + u := digitChar_toNat h10
      have heq : formatBitsLoop (k + 1) u [] = [digitChar u] := by
        conv_lhs => unfold formatBitsLoop
        rw [if_neg hge]
      rw [heq]
      refine ⟨?_, ?_, ?_, ?_, ?_⟩
      · intro c hc
        simp only [List.mem_singleton] at hc
        subst hc
        exact digitChar_isDecDigit h10
      · simp
      · intro h0 h
        simp only [List.head?_cons, Option.some.injEq] at h
        rw [h] at hz
        have : ('0' : Char).toNat = 48 := rfl
        omega
      · intro h0
        subst h0
        rfl
      · intro n
        simp [decFold, hz]

theorem isDecDigit_ne_minus {c : Char} (h : isDecDigit c) : c ≠ '-' := by
  intro e
  subst e
  revert h
  decide

theorem small_canonical (k : Nat) (hk : k < 100) : CanonicalDecimal (k : Int) (small k) := by
  unfold CanonicalDecimal
  have hn : ¬ ((k : Int) < 0) := by omega
  simp only [hn, iff_false, Int.natAbs_ofNat]
  interval_cases k <;> decide

theorem formatBits_canonical_nonneg (u : Nat) (hu : u < 2 ^ 64) :
    CanonicalDecimal (u : Int) (formatBitsLoop 64 u []) := by
  have hlt : u < 10 ^ (64 + 1) := lt_trans hu (by norm_num)
  obtain ⟨a, b, c, d, e⟩ := formatBitsLoop_spec 64 u hlt
  have hn : ¬ ((u : Int) < 0) := by omega
  cases hF : formatBitsLoop 64 u [] with
  | nil => simp [hF] at b
  | cons x xs =>
    rw [hF] at a c d e
    have hx : isDecDigit x := a x (List.mem_cons_self _ _)
    have hxm : x ≠ '-' := isDecDigit_ne_minus hx
    have hstrip : stripSign (x :: xs) = x :: xs := by simp [stripSign, hxm]
    unfold CanonicalDecimal
    rw [hstrip]
    refine ⟨?_, ?_, a, ?_, ?_⟩
    · simp [hn, hxm]
    · simp
    · intro h0
      by_cases hu0 : u = 0
      · exact d hu0
      · exact absurd h0 (c hu0)
    · simpa using e 0

theorem formatBits_canonical_neg (u : Nat) (hu : u < 2 ^ 64) (hpos : 0 < u) :
    CanonicalDecimal (-(u : Int)) ('-' :: formatBitsLoop 64 u []) := by
  have hlt : u < 10 ^ (64 + 1) := lt_trans hu (by norm_num)
  obtain ⟨a, b, c, d, e⟩ := formatBitsLoop_spec 64 u hlt
  have hn : (-(u : Int) < 0) := by omega
  have hstrip : stripSign ('-' :: formatBitsLoop 64 u []) = formatBitsLoop 64 u [] := by
    simp [stripSign]
  unfold CanonicalDecimal
  rw [hstrip]
  refine ⟨?_, ?_, a, ?_, ?_⟩
  · simp [hn]
  · intro h0
    simp [h0] at b
  · intro h0
    exact absurd h0 (c (by omega))
  · simpa using e 0

theorem FormatInt_canonical (i : Int) (h : isInt64 i) : CanonicalDecimal i (FormatInt i) := by
  unfold isInt64 at h
  by_cases hs : 0 ≤ i ∧ i < 100
  · have hi : i.toNat < 100 := by omega
    have hab : ((i.toNat : Nat) : Int) = i := by omega
    have := small_canonical i.toNat hi
    rw [hab] at this
    simpa only [FormatInt, if_pos hs] using this
  · by_cases hn : i < 0
    · have hu : (2 ^ 64 - (i % (2 : Int) ^ 64).toNat) % 2 ^ 64 = i.natAbs := by omega
      have hb : i.natAbs < 2 ^ 64 := by omega
      have hp : 0 < i.natAbs := by omega
      have hi : -((i.natAbs : Nat) : Int) = i := by omega
      have := formatBits_canonical_neg i.natAbs hb hp
      rw [hi] at this
      simpa only [FormatInt, if_neg hs, hn, hu, decide_True, if_true] using this
    · have hu : (i % (2 : Int) ^ 64).toNat = i.natAbs := by omega
      have hb : i.natAbs < 2 ^ 64 := by omega
      have hi : ((i.natAbs : Nat) : Int) = i := by omega
      have := formatBits_canonical_nonneg i.natAbs hb
      rw [hi] at this
      simpa only [FormatInt, if_neg hs, hn, hu, decide_False, if_false, Bool.false_eq_true] using this

theorem ParseInt_canonical (i : Int) (s : List Char) (h : isInt64 i)
    (hc : CanonicalDecimal i s) : ParseInt s = .ok i := by
  unfold isInt64 at h
  obtain ⟨hsign, hne, hdig, _, hval⟩ := hc
  cases s with
  | nil => simp [stripSign] at hne
  | cons c rest =>
    by_cases hm : c = '-'
    · subst hm
      have hneg : i < 0 := hsign.mp (by simp)
      have hstrip : stripSign ('-' :: rest) = rest := by simp [stripSign]
      rw [hstrip] at hne hdig hval
      have hb : decFold 0 rest < 2 ^ 64 := by rw [hval]; omega
      have hp : ParseUint rest = .ok i.natAbs := by
        unfold ParseUint
        rw [if_neg hne, parseUintLoop_digits rest 0 hdig hb, hval]
      have h1 : ¬ i.natAbs > 2 ^ 63 := by omega
      have hi : -((i.natAbs : Nat) : Int) = i := by omega
      simp only [ParseInt, hp, decide_True, or_true, if_true, not_true_eq_false, false_and,
        if_false, true_and, if_neg h1, hi]
    · have hstrip : stripSign (c :: rest) = c :: rest := by simp [stripSign, hm]
      rw [hstrip] at hne hdig hval
      have hnn : ¬ i < 0 := by
        intro hlt
        have := hsign.mpr hlt
        simp at this
        exact hm this
      have hcd : isDecDigit c := hdig c (List.mem_cons_self _ _)
      have hplus : c ≠ '+' := by
        intro e
        subst e
        revert hcd
        decide
      have hb : decFold 0 (c :: rest) < 2 ^ 64 := by rw [hval]; omega
      have hp : ParseUint (c :: rest) = .ok i.natAbs := by
        unfold ParseUint
        rw [if_neg hne, parseUintLoop_digits (c :: rest) 0 hdig hb, hval]
      have h1 : ¬ i.natAbs ≥ 2 ^ 63 := by omega
      have hi : ((i.natAbs : Nat) : Int) = i := by omega
      simp only [ParseInt, hm, hplus, or_self, if_false, hp, decide_False, Bool.false_eq_true,
        not_false_eq_true, true_and, if_neg h1, false_and, hi]

/-! ## The JSON form of a canonical decimal text -/

theorem isDecDigit_mem {c : Char} (h : isDecDigit c) : c ∈ "0123456789".toList := by
  unfold isDecDigit at h
  obtain ⟨h1, h2⟩ := h
  generalize hn : c.toNat = n at h1 h2
  interval_cases n
  · rw [char_eq_of_toNat_eq (d := '0') hn]; decide
  · rw [char_eq_of_toNat_eq (d := '1') hn]; decide
  · rw [char_eq_of_toNat_eq (d := '2') hn]; decide
  · rw [char_eq_of_toNat_eq (d := '3') hn]; decide
  · rw [char_eq_of_toNat_eq (d := '4') hn]; decide
  · rw [char_eq_of_toNat_eq (d := '5') hn]; decide
  · rw [char_eq_of_toNat_eq (d := '6') hn]; decide
  · rw [char_eq_of_toNat_eq (d := '7') hn]; decide
  · rw [char_eq_of_toNat_eq (d := '8') hn]; decide
  · rw [char_eq_of_toNat_eq (d := '9') hn]; decide

theorem canonical_mem {i : Int} {s : List Char} (hc : CanonicalDecimal i s) :
    ∀ c ∈ s, c ∈ "-0123456789".toList := by
  obtain ⟨_, _, hdig, _, _⟩ := hc
  have hd : ∀ c ∈ stripSign s, c ∈ "-0123456789".toList := fun c h =>
    List.mem_cons_of_mem _ (isDecDigit_mem (hdig c h))
  cases s with
  | nil => simp
  | cons x xs =>
    by_cases hx : x = '-'
    · subst hx
      have hs : stripSign ('-' :: xs) = xs := by simp [stripSign]
      rw [hs] at hd
      intro c hc
      rcases List.mem_cons.mp hc with h | h
      · subst h; decide
      · exact hd c h
    · have hs : stripSign (x :: xs) = x :: xs := by simp [stripSign, hx]
      rw [hs] at hd
      exact hd

theorem escapeChar_plain : ∀ c ∈ "-0123456789".toList, escapeChar c = [c] := by decide

theorem flatMap_escapeChar_plain (s : List Char) (h : ∀ c ∈ s, c ∈ "-0123456789".toList) :
    s.flatMap escapeChar = s := by
  induction s with
  | nil => rfl
  | cons c s ih =>
    rw [List.flatMap_cons, escapeChar_plain c (h c (List.mem_cons_self _ _)),
      ih (fun x hx => h x (List.mem_cons_of_mem _ hx))]
    rfl

theorem plain_scan_facts : ∀ c ∈ "-0123456789".toList,
    c ≠ quoteChar ∧ c ≠ backslashChar ∧ ¬ c.toNat < 32 ∧ isJsonSpace c = false := by decide

theorem unquoteLoop_plain (s rest : List Char) (fuel : Nat)
    (h : ∀ c ∈ s, c ∈ "-0123456789".toList) (hf : s.length < fuel) :
    unquoteLoop fuel (s ++ quoteChar :: rest) = some (s, rest) := by
  induction s generalizing fuel with
  | nil =>
    cases fuel with
    | zero => simp at hf
    | succ k => simp [unquoteLoop]
  | cons c s ih =>
    cases fuel with
    | zero => simp at hf
    | succ k =>
      obtain ⟨h1, h2, h3, _⟩ := plain_scan_facts c (h c (List.mem_cons_self _ _))
      have hk : s.length < k := by simpa using hf
      have hstep : unquoteLoop (k + 1) (c :: (s ++ quoteChar :: rest)) =
          consDecoded c (unquoteLoop k (s ++ quoteChar :: rest)) := by
        conv_lhs => unfold unquoteLoop
        simp only [if_neg h1, if_neg h2, if_neg h3]
      rw [List.cons_append, hstep, ih k (fun x hx => h x (List.mem_cons_of_mem _ hx)) hk]
      rfl

theorem scanDigits_all (ds : List Char) (h : ∀ c ∈ ds, isDecDigit c) :
    scanDigits ds = (ds, []) := by
  unfold scanDigits
  have h1 : ∀ c ∈ ds, decide (48 ≤ c.toNat ∧ c.toNat ≤ 57) = true := by
    intro c hc
    have := h c hc
    unfold isDecDigit at this
    simpa using this
  rw [List.takeWhile_eq_self_iff.mpr h1, List.dropWhile_eq_nil_iff.mpr h1]

theorem skipSpace_cons {c : Char} (rest : List Char) (h : isJsonSpace c = false) :
    skipSpace (c :: rest) = c :: rest := by
  simp [skipSpace, List.dropWhile_cons, h]

theorem skipSpace_nil : skipSpace [] = [] := rfl

theorem jsonUnmarshalString_quoted (s t : List Char)
    (h : ∀ c ∈ s, c ∈ "-0123456789".toList) :
    jsonUnmarshalString (quoteChar :: (s ++ [quoteChar])) t = .ok s := by
  have hq : isJsonSpace quoteChar = false := by decide
  have hu : unquote (s ++ [quoteChar]) = some (s, []) := by
    unfold unquote
    exact unquoteLoop_plain s [] _ h (by simp only [List.length_append, List.length_singleton]; omega)
  unfold jsonUnmarshalString
  rw [skipSpace_cons _ hq]
  simp only [if_true, hu, skipSpace_nil]

theorem scanIntPart_digits (sign ds : List Char) (hne : ds ≠ [])
    (hdig : ∀ c ∈ ds, isDecDigit c) (hz : ds.head? = some '0' → ds = ['0']) :
    scanIntPart sign ds = some (sign ++ ds, []) := by
  cases ds with
  | nil => exact absurd rfl hne
  | cons c rest =>
    by_cases h0 : c = '0'
    · subst h0
      have hr : rest = [] := by simpa using hz rfl
      subst hr
      simp [scanIntPart, scanFrac]
    · have hc : isDecDigit c := hdig c (List.mem_cons_self _ _)
      have hrest : ∀ x ∈ rest, isDecDigit x := fun x hx => hdig x (List.mem_cons_of_mem _ hx)
      have h49 : 49 ≤ c.toNat ∧ c.toNat ≤ 57 := by
        unfold isDecDigit at hc
        refine ⟨?_, hc.2⟩
        by_contra hlt
        have h48 : c.toNat = ('0' : Char).toNat := by
          have : ('0' : Char).toNat = 48 := rfl
          omega
        exact h0 (char_eq_of_toNat_eq h48)
      simp [scanIntPart, h0, h49, scanDigits_all rest hrest, scanFrac]

theorem scanNumber_canonical (i : Int) (s : List Char) (hc : CanonicalDecimal i s) :
    scanNumber s = some (s, []) := by
  obtain ⟨_, hne, hdig, hz, _⟩ := hc
  cases s with
  | nil => simp [stripSign] at hne
  | cons c rest =>
    by_cases hm : c = '-'
    · subst hm
      have hs : stripSign ('-' :: rest) = rest := by simp [stripSign]
      rw [hs] at hne hdig hz
      simp [scanNumber, scanIntPart_digits ['-'] rest hne hdig hz]
    · have hs : stripSign (c :: rest) = c :: rest := by simp [stripSign, hm]
      rw [hs] at hne hdig hz
      simp [scanNumber, hm, scanIntPart_digits [] (c :: rest) hne hdig hz]

theorem plain_number_start : ∀ c ∈ "-0123456789".toList,
    c = '-' ∨ (48 ≤ c.toNat ∧ c.toNat ≤ 57) := by decide

theorem jsonUnmarshalInt64_canonical (i j : Int) (s : List Char) (h : isInt64 i)
    (hc : CanonicalDecimal i s) : jsonUnmarshalInt64 s j = .ok i := by
  have hmem := canonical_mem hc
  have hscan := scanNumber_canonical i s hc
  have hparse := ParseInt_canonical i s h hc
  cases s with
  | nil => simp [scanNumber] at hscan
  | cons c rest =>
    obtain ⟨_, _, _, hsp⟩ := plain_scan_facts c (hmem c (List.mem_cons_self _ _))
    have hstart : c = '-' ∨ (48 ≤ c.toNat ∧ c.toNat ≤ 57) :=
      plain_number_start c (hmem c (List.mem_cons_self _ _))
    unfold jsonUnmarshalInt64
    rw [skipSpace_cons _ hsp]
    simp only [if_pos hstart, hscan, skipSpace_nil, if_true, hparse]

/-! ## Claims on the identifier -/

theorem first_not_quote : ∀ c ∈ "-0123456789".toList, c ≠ quoteChar := by decide

/-- C1: for every 64-bit signed integer `i`, `ID(i).MarshalJSON()` returns no error, and
`UnmarshalJSON` on the bytes it produced, whatever the receiver held before, returns no
error and leaves the receiver equal to `i`. -/
theorem ID_json_round_trip (i prior : Int) (h : isInt64 i) :
    (ID.MarshalJSON i).2 = none ∧
    ID.UnmarshalJSON prior (ID.MarshalJSON i).1 = (i, none) := by
  refine ⟨rfl, ?_⟩
  have hc := FormatInt_canonical i h
  have hmem := canonical_mem hc
  have hne : FormatInt i ≠ [] := by
    intro he
    rw [he] at hc
    exact hc.2.1 rfl
  have hbytes : (ID.MarshalJSON i).1 = quoteChar :: (FormatInt i ++ [quoteChar]) := by
    simp only [ID.MarshalJSON, jsonMarshalString, ID.String,
      flatMap_escapeChar_plain _ hmem]
  rw [hbytes]
  simp only [ID.UnmarshalJSON, if_true, jsonUnmarshalString_quoted _ _ hmem, if_neg hne,
    ParseInt_canonical i _ h hc]

/-- Witness of C1 at `2^53 + 1`, at the minimum and at the maximum of `int64`. -/
theorem ID_json_round_trip_witness :
    (isInt64 9007199254740993 ∧
      (ID.MarshalJSON 9007199254740993).2 = none ∧
      ID.UnmarshalJSON 7 (ID.MarshalJSON 9007199254740993).1 = (9007199254740993, none)) ∧
    (isInt64 (-9223372036854775808) ∧
      (ID.MarshalJSON (-9223372036854775808)).2 = none ∧
      ID.UnmarshalJSON 7 (ID.MarshalJSON (-9223372036854775808)).1 =
        (-9223372036854775808, none)) ∧
    (isInt64 9223372036854775807 ∧
      (ID.MarshalJSON 9223372036854775807).2 = none ∧
      ID.UnmarshalJSON 7 (ID.MarshalJSON 9223372036854775807).1 =
        (9223372036854775807, none)) :=
  ⟨⟨by decide, ID_json_round_trip 9007199254740993 7 (by decide)⟩,
   ⟨by decide, ID_json_round_trip (-9223372036854775808) 7 (by decide)⟩,
   ⟨by decide, ID_json_round_trip 9223372036854775807 7 (by decide)⟩⟩

/-- C2: for every `int64` `i`, `ID(i).MarshalJSON()` returns no error and exactly the
bytes of `ID(i).String()` between two quotation marks, and `ID(i).String()` is the
canonical base-10 form of `i`: digits only after an optional leading minus sign, the sign
present exactly when `i < 0`, no leading zero unless the text is `0`, of value `|i|`. -/
theorem ID_MarshalJSON_quoted_decimal (i : Int) (h : isInt64 i) :
    ID.MarshalJSON i = (quoteChar :: (ID.String i ++ [quoteChar]), none) ∧
    CanonicalDecimal i (ID.String i) := by
  have hc := FormatInt_canonical i h
  refine ⟨?_, hc⟩
  simp only [ID.MarshalJSON, jsonMarshalString, ID.String,
    flatMap_escapeChar_plain _ (canonical_mem hc)]

/-- Witness of C2 at a negative identifier. -/
theorem ID_MarshalJSON_quoted_decimal_witness :
    isInt64 (-1203) ∧
    ID.MarshalJSON (-1203) = (quoteChar :: (ID.String (-1203) ++ [quoteChar]), none) ∧
    CanonicalDecimal (-1203) (ID.String (-1203)) :=
  ⟨by decide, ID_MarshalJSON_quoted_decimal (-1203) (by decide)⟩

/-- C3: whatever the receiver held before, `UnmarshalJSON` on the empty byte sequence, on
the two bytes `""`, on the three bytes `"0"` and on the single byte `0` returns no error
and leaves the receiver equal to 0. -/
theorem ID_UnmarshalJSON_zero (prior : Int) :
    ID.UnmarshalJSON prior [] = (0, none) ∧
    ID.UnmarshalJSON prior [quoteChar, quoteChar] = (0, none) ∧
    ID.UnmarshalJSON prior [quoteChar, '0', quoteChar] = (0, none) ∧
    ID.UnmarshalJSON prior ['0'] = (0, none) :=
  ⟨rfl, rfl, rfl, rfl⟩

/-- C4: for every `int64` `i` with canonical decimal text `s`, `UnmarshalJSON` on the bare
JSON number `s` and `UnmarshalJSON` on the quoted JSON string made of `s` both return no
error and both leave the receiver equal to `i`. -/
theorem ID_UnmarshalJSON_both_forms (i prior : Int) (s : List Char) (h : isInt64 i)
    (hs : CanonicalDecimal i s) :
    ID.UnmarshalJSON prior s = (i, none) ∧
    ID.UnmarshalJSON prior (quoteChar :: (s ++ [quoteChar])) = (i, none) := by
  have hmem := canonical_mem hs
  have hne : s ≠ [] := by
    intro he
    rw [he] at hs
    exact hs.2.1 rfl
  refine ⟨?_, ?_⟩
  · cases s with
    | nil => exact absurd rfl hne
    | cons c rest =>
      have hq : c ≠ quoteChar := first_not_quote c (hmem c (List.mem_cons_self _ _))
      simp only [ID.UnmarshalJSON, if_neg hq, jsonUnmarshalInt64_canonical i 0 _ h hs]
  · simp only [ID.UnmarshalJSON, if_true, jsonUnmarshalString_quoted _ _ hmem, if_neg hne,
      ParseInt_canonical i _ h hs]

/-- Witness of C4 at `2^53 + 1`. -/
theorem ID_UnmarshalJSON_both_forms_witness :
    isInt64 9007199254740993 ∧ CanonicalDecimal 9007199254740993 "9007199254740993".toList ∧
    ID.UnmarshalJSON 3 "9007199254740993".toList = (9007199254740993, none) ∧
    ID.UnmarshalJSON 3 (quoteChar :: ("9007199254740993".toList ++ [quoteChar])) =
      (9007199254740993, none) :=
  ⟨by decide, by decide,
   ID_UnmarshalJSON_both_forms 9007199254740993 3 "9007199254740993".toList
     (by decide) (by decide)⟩

/-! ## White-space trimming -/

theorem TrimSpace_eq (s : List Char) :
    TrimSpace s = (s.dropWhile isSpace).rdropWhile isSpace := rfl

theorem dropWhile_head_false (p : Char → Bool) (s : List Char) (x : Char) (xs : List Char)
    (h : s.dropWhile p = x :: xs) : p x = false := by
  induction s with
  | nil => simp at h
  | cons c s ih =>
    by_cases hc : p c = true
    · rw [List.dropWhile_cons, if_pos hc] at h
      exact ih h
    · rw [List.dropWhile_cons, if_neg hc] at h
      have : c = x := (List.cons.inj h).1
      subst this
      simpa using hc

theorem TrimSpace_idempotent (s : List Char) : TrimSpace (TrimSpace s) = TrimSpace s := by
  rw [TrimSpace_eq (TrimSpace s), TrimSpace_eq s]
  have hfix : ((s.dropWhile isSpace).rdropWhile isSpace).dropWhile isSpace =
      (s.dropWhile isSpace).rdropWhile isSpace := by
    obtain ⟨r, hr⟩ := List.rdropWhile_prefix isSpace (l := s.dropWhile isSpace)
    cases ht : (s.dropWhile isSpace).rdropWhile isSpace with
    | nil => rfl
    | cons x t =>
      rw [ht] at hr
      have hx : isSpace x = false := dropWhile_head_false isSpace s x (t ++ r) hr.symm
      simp [List.dropWhile_cons, hx]
  rw [hfix, List.rdropWhile_idempotent]

theorem TrimSpace_of_all_space (s : List Char) (h : ∀ c ∈ s, isSpace c = true) :
    TrimSpace s = [] := by
  rw [TrimSpace_eq, (List.dropWhile_eq_nil_iff).mpr h]
  rfl

/-! ## The validation accumulator -/

theorem Must_errors (v : Validator) (ok : Bool) (msg : List Char) :
    (v.Must ok msg).1.errors = v.errors ++ (if ok = true then [] else [msg]) := by
  cases ok <;> simp [Validator.Must]

theorem Must_snd (v : Validator) (ok : Bool) (msg : List Char) : (v.Must ok msg).2 = ok := by
  cases ok <;> simp [Validator.Must]

theorem WrapValidate_eq_none_iff (v : Validator) : WrapValidate v = none ↔ v.errors = [] := by
  unfold WrapValidate
  split <;> simp_all

theorem validationMessages_WrapValidate (v : Validator) :
    validationMessages (WrapValidate v) = v.errors := by
  unfold WrapValidate
  split
  · rename_i h
    simp [validationMessages, h]
  · rfl

theorem ne_of_head?_ne {a b : List Char} (h : a.head? ≠ b.head?) : a ≠ b := by
  intro e
  exact h (by rw [e])

/-! ## Claims on `DiskCreate` -/

theorem DiskCreate_messages (k : Consts) (m : DiskCreate) :
    validationMessages (DiskCreate.Valid k m).2 =
      (if m.Location ≠ [] then [] else ["location required".toList]) ++
      (if m.Project ≠ [] then [] else ["project required".toList]) ++
      (if k.ReValidName (TrimSpace m.Name) = true then []
        else ["name invalid ".toList ++ k.ReValidNameStr]) ++
      (if k.MinNameLength ≤ ((TrimSpace m.Name).length : Int) ∧
          ((TrimSpace m.Name).length : Int) ≤ k.MaxNameLength then []
        else ["name must have length between ".toList ++ FormatInt k.MinNameLength ++
          "-".toList ++ FormatInt k.MaxNameLength ++ " characters".toList]) ++
      (if 1 ≤ m.Size then [] else ["minimum disk size 1 Gi".toList]) ++
      (if m.Size ≤ k.DiskMaxSize then []
        else ["maximum disk size ".toList ++ FormatInt k.DiskMaxSize ++ " Gi".toList]) := by
  simp only [DiskCreate.Valid, validationMessages_WrapValidate, Must_errors, Validator.New,
    RuneCountInString, decide_eq_true_eq, List.nil_append, ge_iff_le]

theorem DiskCreate_nil_iff_messages (k : Consts) (m : DiskCreate) :
    (DiskCreate.Valid k m).2 = none ↔ validationMessages (DiskCreate.Valid k m).2 = [] := by
  simp only [DiskCreate.Valid, validationMessages_WrapValidate, WrapValidate_eq_none_iff]

/-- C5: `DiskCreate.Valid()` returns nil if and only if Location is non-empty, Project is
non-empty, the trimmed Name matches `ReValidName`, the trimmed Name has between
`MinNameLength` and `MaxNameLength` code points inclusive, and `1 ≤ Size ≤ DiskMaxSize`
(pattern and constants being parameters). -/
theorem DiskCreate_Valid_nil_iff (k : Consts) (m : DiskCreate) :
    (DiskCreate.Valid k m).2 = none ↔
      (m.Location ≠ [] ∧ m.Project ≠ [] ∧ k.ReValidName (TrimSpace m.Name) = true ∧
       k.MinNameLength ≤ ((TrimSpace m.Name).length : Int) ∧
       ((TrimSpace m.Name).length : Int) ≤ k.MaxNameLength ∧
       1 ≤ m.Size ∧ m.Size ≤ k.DiskMaxSize) := by
  rw [DiskCreate_nil_iff_messages, DiskCreate_messages]
  simp only [List.append_eq_nil, ite_eq_left_iff, List.cons_ne_nil, imp_false, not_not,
    and_assoc]

theorem mem_ite_singleton (x msg : List Char) (p : Prop) [Decidable p] :
    x ∈ (if p then [] else [msg]) ↔ (¬ p ∧ x = msg) := by
  by_cases h : p <;> simp [h]

/-- C6: the messages accumulated by `DiskCreate.Valid()` are exactly, in rule order, the
messages of the rules that fail among location required, project required, name pattern,
name length, minimum size and maximum size; the minimum-size message is reported exactly
when `Size < 1` and the maximum-size message exactly when `Size > DiskMaxSize`, whatever
the other fields are. -/
theorem DiskCreate_Valid_reports_every_rule (k : Consts) (m : DiskCreate) :
    validationMessages (DiskCreate.Valid k m).2 = failingMessages (DiskCreate.specRules k m) ∧
    ("minimum disk size 1 Gi".toList ∈ validationMessages (DiskCreate.Valid k m).2 ↔
      m.Size < 1) ∧
    (("maximum disk size ".toList ++ FormatInt k.DiskMaxSize ++ " Gi".toList) ∈
        validationMessages (DiskCreate.Valid k m).2 ↔ m.Size > k.DiskMaxSize) := by
  have hmin1 : "minimum disk size 1 Gi".toList ≠ "location required".toList := by decide
  have hmin2 : "minimum disk size 1 Gi".toList ≠ "project required".toList := by decide
  have hmin3 : "minimum disk size 1 Gi".toList ≠ "name invalid ".toList ++ k.ReValidNameStr :=
    ne_of_head?_ne (by simp)
  have hmin4 : "minimum disk size 1 Gi".toList ≠
      "name must have length between ".toList ++ FormatInt k.MinNameLength ++ "-".toList ++
        FormatInt k.MaxNameLength ++ " characters".toList :=
    ne_of_head?_ne (by simp)
  have hmin6 : "minimum disk size 1 Gi".toList ≠
      "maximum disk size ".toList ++ FormatInt k.DiskMaxSize ++ " Gi".toList := by
    intro e
    have := congrArg (fun l => l.get? 1) e
    simp at this
  have hmax1 : "maximum disk size ".toList ++ FormatInt k.DiskMaxSize ++ " Gi".toList ≠
      "location required".toList := ne_of_head?_ne (by simp)
  have hmax2 : "maximum disk size ".toList ++ FormatInt k.DiskMaxSize ++ " Gi".toList ≠
      "project required".toList := ne_of_head?_ne (by simp)
  have hmax3 : "maximum disk size ".toList ++ FormatInt k.DiskMaxSize ++ " Gi".toList ≠
      "name invalid ".toList ++ k.ReValidNameStr := ne_of_head?_ne (by simp)
  have hmax4 : "maximum disk size ".toList ++ FormatInt k.DiskMaxSize ++ " Gi".toList ≠
      "name must have length between ".toList ++ FormatInt k.MinNameLength ++ "-".toList ++
        FormatInt k.MaxNameLength ++ " characters".toList := ne_of_head?_ne (by simp)
  refine ⟨?_, ?_, ?_⟩
  · rw [DiskCreate_messages]
    simp only [failingMessages, DiskCreate.specRules]
    by_cases h1 : m.Location ≠ [] <;> by_cases h2 : m.Project ≠ [] <;>
      by_cases h3 : k.ReValidName (TrimSpace m.Name) = true <;>
      by_cases h4 : (k.MinNameLength ≤ ((TrimSpace m.Name).length : Int) ∧
          ((TrimSpace m.Name).length : Int) ≤ k.MaxNameLength) <;>
      by_cases h5 : 1 ≤ m.Size <;> by_cases h6 : m.Size ≤ k.DiskMaxSize <;>
      simp [h1, h2, h3, h4, h5, h6, List.filter_cons]
  · rw [DiskCreate_messages]
    simp only [List.mem_append, mem_ite_singleton, hmin1, hmin2, hmin3, hmin4, hmin6,
      and_false, false_or, or_false, and_true, not_le]
  · rw [DiskCreate_messages]
    simp only [List.mem_append, mem_ite_singleton, hmax1, hmax2, hmax3, hmax4, hmin6.symm,
      and_false, false_or, or_false, and_true, not_le, gt_iff_lt]

/-! ## Claims on `DiskDelete` -/

theorem failingMessages_three (a b c : Bool) (x y z : List Char) :
    failingMessages [(a, x), (b, y), (c, z)] =
      (if a = true then [] else [x]) ++ (if b = true then [] else [y]) ++
      (if c = true then [] else [z]) := by
  cases a <;> cases b <;> cases c <;> rfl

/-- C7: when the trimmed Name of a `DiskDelete` has more than `MaxNameLength` code points,
`Valid()` returns the single ad hoc error "name invalid", which is not an aggregated
validation error and carries no accumulated message, whatever Location and Project are;
otherwise `Valid()` returns the aggregated result of the three rules location required,
project required and name pattern, which is nil exactly when Location and Project are
non-empty and the trimmed Name matches `ReValidName`. -/
theorem DiskDelete_Valid_two_paths (k : Consts) (m : DiskDelete) :
    (k.MaxNameLength < ((TrimSpace m.Name).length : Int) →
      (DiskDelete.Valid k m).2 = some (.errorf "name invalid".toList) ∧
      (∀ msgs, (DiskDelete.Valid k m).2 ≠ some (.validateErr msgs)) ∧
      validationMessages (DiskDelete.Valid k m).2 = []) ∧
    (((TrimSpace m.Name).length : Int) ≤ k.MaxNameLength →
      (DiskDelete.Valid k m).2 = WrapValidate ⟨failingMessages
        [(decide (m.Location ≠ []), "location required".toList),
         (decide (m.Project ≠ []), "project required".toList),
         (k.ReValidName (TrimSpace m.Name), "name invalid ".toList ++ k.ReValidNameStr)]⟩ ∧
      ((DiskDelete.Valid k m).2 = none ↔
        (m.Location ≠ [] ∧ m.Project ≠ [] ∧ k.ReValidName (TrimSpace m.Name) = true))) := by
  constructor
  · intro h
    have he : (DiskDelete.Valid k m).2 = some (.errorf "name invalid".toList) := by
      simp only [DiskDelete.Valid, RuneCountInString, gt_iff_lt, if_pos h]
    rw [he]
    exact ⟨rfl, fun msgs hm => by simp at hm, rfl⟩
  · intro h
    have hn : ¬ (k.MaxNameLength < ((TrimSpace m.Name).length : Int)) := not_lt.mpr h
    have he : (DiskDelete.Valid k m).2 = WrapValidate ⟨failingMessages
        [(decide (m.Location ≠ []), "location required".toList),
         (decide (m.Project ≠ []), "project required".toList),
         (k.ReValidName (TrimSpace m.Name), "name invalid ".toList ++ k.ReValidNameStr)]⟩ := by
      simp only [DiskDelete.Valid, RuneCountInString, gt_iff_lt, if_neg hn]
      congr 1
      rw [failingMessages_three]
      apply congrArg Validator.mk
      simp only [Must_errors, Validator.New, List.nil_append]
    refine ⟨he, ?_⟩
    rw [he, WrapValidate_eq_none_iff, failingMessages_three]
    simp only [List.append_eq_nil, ite_eq_left_iff, List.cons_ne_nil, imp_false, not_not,
      and_assoc, decide_eq_true_eq]

/-- Witness of C7 on both paths: an over-long name with an empty Location, and a short
valid name. -/
theorem DiskDelete_Valid_two_paths_witness :
    (exampleConsts.MaxNameLength <
        ((TrimSpace "abcdefghijklmnopqrstuvwxyz".toList).length : Int) ∧
      ((DiskDelete.Valid exampleConsts ⟨[], "p".toList, "abcdefghijklmnopqrstuvwxyz".toList⟩).2
          = some (.errorf "name invalid".toList) ∧
        (∀ msgs, (DiskDelete.Valid exampleConsts
          ⟨[], "p".toList, "abcdefghijklmnopqrstuvwxyz".toList⟩).2 ≠
            some (.validateErr msgs)) ∧
        validationMessages (DiskDelete.Valid exampleConsts
          ⟨[], "p".toList, "abcdefghijklmnopqrstuvwxyz".toList⟩).2 = [])) ∧
    (((TrimSpace " ab ".toList).length : Int) ≤ exampleConsts.MaxNameLength ∧
      ((DiskDelete.Valid exampleConsts ⟨"l".toList, "p".toList, " ab ".toList⟩).2 = none ↔
        ("l".toList ≠ [] ∧ "p".toList ≠ [] ∧
          exampleConsts.ReValidName (TrimSpace " ab ".toList) = true))) :=
  ⟨⟨by decide,
    (DiskDelete_Valid_two_paths exampleConsts
      ⟨[], "p".toList, "abcdefghijklmnopqrstuvwxyz".toList⟩).1 (by decide)⟩,
   ⟨by decide,
    ((DiskDelete_Valid_two_paths exampleConsts
      ⟨"l".toList, "p".toList, " ab ".toList⟩).2 (by decide)).2⟩⟩

/-! ## Claims on trimming -/

theorem TrimSpace_nil : TrimSpace [] = [] := rfl

/-- C8, as stated, fails on `DiskGet`: with the name of a single space, `Valid()` leaves
the name as it is (it is not the trimmed name, which is empty) and returns nil, while the
empty name is rejected. -/
theorem DiskGet_Valid_does_not_trim :
    (DiskGet.Valid ⟨"l".toList, "p".toList, " ".toList⟩).1.Name ≠ TrimSpace " ".toList ∧
    (DiskGet.Valid ⟨"l".toList, "p".toList, " ".toList⟩).2 = none ∧
    (DiskGet.Valid ⟨"l".toList, "p".toList, []⟩).2 ≠ none := by
  decide

/-- C8, amended: each of `DiskCreate`, `DiskUpdate`, `DiskDelete`, `DiskMetrics` (field
Name) and `ServiceAccountCreate`, `ServiceAccountUpdate` (fields SID, Name, Description)
leaves, after `Valid()` returns with or without an error, each such field equal to the
original field without its leading and trailing white space and every other field
unchanged; the result is the one obtained on the already trimmed value; and a name made
only of white space gives the result of the empty name. `DiskGet` does not trim: it
leaves the structure unchanged and checks the name as given for emptiness. -/
theorem Valid_trims_free_text (k : Consts) :
    (∀ m : DiskCreate,
      (DiskCreate.Valid k m).1 = { m with Name := TrimSpace m.Name } ∧
      DiskCreate.Valid k { m with Name := TrimSpace m.Name } = DiskCreate.Valid k m ∧
      ((∀ c ∈ m.Name, isSpace c = true) →
        DiskCreate.Valid k m = DiskCreate.Valid k { m with Name := [] })) ∧
    (∀ m : DiskUpdate,
      (DiskUpdate.Valid k m).1 = { m with Name := TrimSpace m.Name } ∧
      DiskUpdate.Valid k { m with Name := TrimSpace m.Name } = DiskUpdate.Valid k m ∧
      ((∀ c ∈ m.Name, isSpace c = true) →
        DiskUpdate.Valid k m = DiskUpdate.Valid k { m with Name := [] })) ∧
    (∀ m : DiskDelete,
      (DiskDelete.Valid k m).1 = { m with Name := TrimSpace m.Name } ∧
      DiskDelete.Valid k { m with Name := TrimSpace m.Name } = DiskDelete.Valid k m ∧
      ((∀ c ∈ m.Name, isSpace c = true) →
        DiskDelete.Valid k m = DiskDelete.Valid k { m with Name := [] })) ∧
    (∀ m : DiskMetrics,
      (DiskMetrics.Valid k m).1 = { m with Name := TrimSpace m.Name } ∧
      DiskMetrics.Valid k { m with Name := TrimSpace m.Name } = DiskMetrics.Valid k m ∧
      ((∀ c ∈ m.Name, isSpace c = true) →
        DiskMetrics.Valid k m = DiskMetrics.Valid k { m with Name := [] })) ∧
    (∀ m : ServiceAccountCreate,
      (ServiceAccountCreate.Valid k m).1 =
        { m with SID := TrimSpace m.SID, Name := TrimSpace m.Name,
                 Description := TrimSpace m.Description } ∧
      ServiceAccountCreate.Valid k
        { m with SID := TrimSpace m.SID, Name := TrimSpace m.Name,
                 Description := TrimSpace m.Description } = ServiceAccountCreate.Valid k m ∧
      ((∀ c ∈ m.Name, isSpace c = true) →
        ServiceAccountCreate.Valid k m = ServiceAccountCreate.Valid k { m with Name := [] })) ∧
    (∀ m : ServiceAccountUpdate,
      (ServiceAccountUpdate.Valid k m).1 =
        { m with SID := TrimSpace m.SID, Name := TrimSpace m.Name,
                 Description := TrimSpace m.Description } ∧
      ServiceAccountUpdate.Valid k
        { m with SID := TrimSpace m.SID, Name := TrimSpace m.Name,
                 Description := TrimSpace m.Description } = ServiceAccountUpdate.Valid k m ∧
      ((∀ c ∈ m.Name, isSpace c = true) →
        ServiceAccountUpdate.Valid k m = ServiceAccountUpdate.Valid k { m with Name := [] })) ∧
    (∀ m : DiskGet,
      (DiskGet.Valid m).1 = m ∧
      ((DiskGet.Valid m).2 = none ↔ (m.Location ≠ [] ∧ m.Project ≠ [] ∧ m.Name ≠ []))) := by
  refine ⟨?_, ?_, ?_, ?_, ?_, ?_, ?_⟩
  · intro m
    refine ⟨rfl, ?_, ?_⟩
    · simp only [DiskCreate.Valid, TrimSpace_idempotent]
    · intro h
      simp only [DiskCreate.Valid, TrimSpace_of_all_space _ h, TrimSpace_nil]
  · intro m
    refine ⟨rfl, ?_, ?_⟩
    · simp only [DiskUpdate.Valid, TrimSpace_idempotent]
    · intro h
      simp only [DiskUpdate.Valid, TrimSpace_of_all_space _ h, TrimSpace_nil]
  · intro m
    refine ⟨?_, ?_, ?_⟩
    · simp only [DiskDelete.Valid]
      split <;> rfl
    · simp only [DiskDelete.Valid, TrimSpace_idempotent]
    · intro h
      simp only [DiskDelete.Valid, TrimSpace_of_all_space _ h, TrimSpace_nil]
  · intro m
    refine ⟨rfl, ?_, ?_⟩
    · simp only [DiskMetrics.Valid, TrimSpace_idempotent]
    · intro h
      simp only [DiskMetrics.Valid, TrimSpace_of_all_space _ h, TrimSpace_nil]
  · intro m
    refine ⟨rfl, ?_, ?_⟩
    · simp only [ServiceAccountCreate.Valid, TrimSpace_idempotent]
    · intro h
      simp only [ServiceAccountCreate.Valid, TrimSpace_of_all_space _ h, TrimSpace_nil]
  · intro m
    refine ⟨rfl, ?_, ?_⟩
    · simp only [ServiceAccountUpdate.Valid, TrimSpace_idempotent]
    · intro h
      simp only [ServiceAccountUpdate.Valid, TrimSpace_of_all_space _ h, TrimSpace_nil]
  · intro m
    refine ⟨rfl, ?_⟩
    simp only [DiskGet.Valid, WrapValidate_eq_none_iff, Must_errors, Validator.New,
      List.nil_append, List.append_eq_nil, ite_eq_left_iff, List.cons_ne_nil, imp_false,
      not_not, decide_eq_true_eq, and_assoc]

/-- Witness of the amended C8: a `DiskCreate` and a `ServiceAccountCreate` whose name is
only white space are validated as with the empty name. -/
theorem Valid_trims_free_text_witness :
    ((∀ c ∈ " \t ".toList, isSpace c = true) ∧
      DiskCreate.Valid exampleConsts ⟨"l".toList, "p".toList, " \t ".toList, 1⟩ =
        DiskCreate.Valid exampleConsts ⟨"l".toList, "p".toList, [], 1⟩) ∧
    ((∀ c ∈ "  ".toList, isSpace c = true) ∧
      ServiceAccountCreate.Valid exampleConsts ⟨"p".toList, " abc".toList, "  ".toList, []⟩ =
        ServiceAccountCreate.Valid exampleConsts ⟨"p".toList, " abc".toList, [], []⟩) :=
  ⟨⟨by decide,
    ((Valid_trims_free_text exampleConsts).1
      ⟨"l".toList, "p".toList, " \t ".toList, 1⟩).2.2 (by decide)⟩,
   ⟨by decide,
    ((Valid_trims_free_text exampleConsts).2.2.2.2.1
      ⟨"p".toList, " abc".toList, "  ".toList, []⟩).2.2 (by decide)⟩⟩

/-! ## Claims on `DiskMetrics` -/

theorem validDiskMetricsTimeRange_eq :
    validDiskMetricsTimeRange =
      [("30d".toList, true), ("7d".toList, true), ("2d".toList, true), ("1d".toList, true),
       ("12h".toList, true), ("6h".toList, true), ("1h".toList, true)] := by
  decide

theorem mapIndex_valid_iff (t : List Char) :
    mapIndex validDiskMetricsTimeRange t = true ↔ t ∈ timeRangeTokens := by
  rw [validDiskMetricsTimeRange_eq]
  unfold mapIndex timeRangeTokens
  by_cases h1 : "30d".toList = t
  · subst h1; decide
  by_cases h2 : "7d".toList = t
  · subst h2; decide
  by_cases h3 : "2d".toList = t
  · subst h3; decide
  by_cases h4 : "1d".toList = t
  · subst h4; decide
  by_cases h5 : "12h".toList = t
  · subst h5; decide
  by_cases h6 : "6h".toList = t
  · subst h6; decide
  by_cases h7 : "1h".toList = t
  · subst h7; decide
  have e1 : ¬ t = "30d".toList := fun e => h1 e.symm
  have e2 : ¬ t = "7d".toList := fun e => h2 e.symm
  have e3 : ¬ t = "2d".toList := fun e => h3 e.symm
  have e4 : ¬ t = "1d".toList := fun e => h4 e.symm
  have e5 : ¬ t = "12h".toList := fun e => h5 e.symm
  have e6 : ¬ t = "6h".toList := fun e => h6 e.symm
  have e7 : ¬ t = "1h".toList := fun e => h7 e.symm
  simp only [List.find?_cons, h1, h2, h3, h4, h5, h6, h7, decide_False, List.find?_nil,
    List.mem_cons, e1, e2, e3, e4, e5, e6, e7, List.mem_nil_iff, or_self,
    Bool.false_eq_true]

theorem DiskMetrics_messages (k : Consts) (m : DiskMetrics) :
    validationMessages (DiskMetrics.Valid k m).2 =
      (if m.Location ≠ [] then [] else ["location required".toList]) ++
      (if k.ReValidName (TrimSpace m.Name) = true then []
        else ["name invalid ".toList ++ k.ReValidNameStr]) ++
      (if ((TrimSpace m.Name).length : Int) ≤ k.MaxNameLength then []
        else ["name must have length less then ".toList ++ FormatInt k.MaxNameLength ++
          " characters".toList]) ++
      (if m.Project ≠ [] then [] else ["project required".toList]) ++
      (if m.TimeRange ∈ timeRangeTokens then [] else ["timeRange invalid".toList]) := by
  simp only [DiskMetrics.Valid, validationMessages_WrapValidate, Must_errors, Validator.New,
    RuneCountInString, decide_eq_true_eq, List.nil_append, mapIndex_valid_iff]

theorem DiskMetrics_nil_iff_messages (k : Consts) (m : DiskMetrics) :
    (DiskMetrics.Valid k m).2 = none ↔ validationMessages (DiskMetrics.Valid k m).2 = [] := by
  simp only [DiskMetrics.Valid, validationMessages_WrapValidate, WrapValidate_eq_none_iff]

/-- C9, as stated, fails: with `MinNameLength = 3` and a pattern matching `ab`,
`DiskMetrics.Valid()` returns nil on the name `ab`, which is shorter than
`MinNameLength`. -/
theorem DiskMetrics_Valid_accepts_short_name :
    ¬ ((DiskMetrics.Valid exampleConsts ⟨"l".toList, "p".toList, "ab".toList, "1h".toList⟩).2
        = none ↔
      ("l".toList ≠ [] ∧ "p".toList ≠ [] ∧
       exampleConsts.ReValidName (TrimSpace "ab".toList) = true ∧
       exampleConsts.MinNameLength ≤ ((TrimSpace "ab".toList).length : Int) ∧
       ((TrimSpace "ab".toList).length : Int) ≤ exampleConsts.MaxNameLength ∧
       "1h".toList ∈ timeRangeTokens)) := by
  decide

/-- C9, amended: `DiskMetrics.Valid()` returns nil if and only if Location is non-empty,
Project is non-empty, the trimmed Name matches `ReValidName`, the trimmed Name has at most
`MaxNameLength` code points (no lower bound), and TimeRange is one of the seven
enumerated tokens. -/
theorem DiskMetrics_Valid_nil_iff (k : Consts) (m : DiskMetrics) :
    (DiskMetrics.Valid k m).2 = none ↔
      (m.Location ≠ [] ∧ m.Project ≠ [] ∧ k.ReValidName (TrimSpace m.Name) = true ∧
       ((TrimSpace m.Name).length : Int) ≤ k.MaxNameLength ∧
       m.TimeRange ∈ timeRangeTokens) := by
  rw [DiskMetrics_nil_iff_messages, DiskMetrics_messages]
  simp only [List.append_eq_nil, ite_eq_left_iff, List.cons_ne_nil, imp_false, not_not,
    and_assoc]
  tauto

/-- C10: for every time range `t`, `DiskMetrics.Valid()` reports "timeRange invalid" if
and only if `t` is not one of the seven tokens 1h, 6h, 12h, 1d, 2d, 7d, 30d, whatever the
other fields are; on a structure whose other fields are valid the call returns nil exactly
for these seven tokens; and the lookup accepts each of the seven tokens and rejects `5h`,
the empty string and `1H`. -/
theorem DiskMetrics_timeRange_closed (k : Consts) (m : DiskMetrics) :
    ("timeRange invalid".toList ∈ validationMessages (DiskMetrics.Valid k m).2 ↔
      m.TimeRange ∉ timeRangeTokens) ∧
    ((m.Location ≠ [] ∧ m.Project ≠ [] ∧ k.ReValidName (TrimSpace m.Name) = true ∧
        ((TrimSpace m.Name).length : Int) ≤ k.MaxNameLength) →
      ((DiskMetrics.Valid k m).2 = none ↔ m.TimeRange ∈ timeRangeTokens)) ∧
    timeRangeTokens = ["1h".toList, "6h".toList, "12h".toList, "1d".toList, "2d".toList,
      "7d".toList, "30d".toList] ∧
    (∀ t ∈ timeRangeTokens, mapIndex validDiskMetricsTimeRange t = true) ∧
    mapIndex validDiskMetricsTimeRange "5h".toList = false ∧
    mapIndex validDiskMetricsTimeRange [] = false ∧
    mapIndex validDiskMetricsTimeRange "1H".toList = false := by
  have h1 : "timeRange invalid".toList ≠ "location required".toList := by decide
  have h2 : "timeRange invalid".toList ≠ "name invalid ".toList ++ k.ReValidNameStr :=
    ne_of_head?_ne (by simp)
  have h3 : "timeRange invalid".toList ≠
      "name must have length less then ".toList ++ FormatInt k.MaxNameLength ++
        " characters".toList := ne_of_head?_ne (by simp)
  have h4 : "timeRange invalid".toList ≠ "project required".toList := by decide
  refine ⟨?_, ?_, rfl, by decide, by decide, by decide, by decide⟩
  · rw [DiskMetrics_messages]
    simp only [List.mem_append, mem_ite_singleton, h1, h2, h3, h4, and_false, false_or,
      and_true]
  · intro h
    rw [DiskMetrics_nil_iff_messages, DiskMetrics_messages]
    obtain ⟨a, b, c, d⟩ := h
    rw [if_pos a, if_pos b, if_pos c, if_pos d]
    simp only [List.nil_append, List.append_nil, ite_eq_left_iff, List.cons_ne_nil,
      imp_false, not_not]

/-- Witness of C10: with otherwise valid fields, `7d` is accepted and `5h` is rejected. -/
theorem DiskMetrics_timeRange_closed_witness :
    (("l".toList ≠ [] ∧ "p".toList ≠ [] ∧
        exampleConsts.ReValidName (TrimSpace "disk-1".toList) = true ∧
        ((TrimSpace "disk-1".toList).length : Int) ≤ exampleConsts.MaxNameLength) ∧
      ((DiskMetrics.Valid exampleConsts
          ⟨"l".toList, "p".toList, "disk-1".toList, "7d".toList⟩).2 = none ↔
        "7d".toList ∈ timeRangeTokens)) ∧
    (("l".toList ≠ [] ∧ "p".toList ≠ [] ∧
        exampleConsts.ReValidName (TrimSpace "disk-1".toList) = true ∧
        ((TrimSpace "disk-1".toList).length : Int) ≤ exampleConsts.MaxNameLength) ∧
      ((DiskMetrics.Valid exampleConsts
          ⟨"l".toList, "p".toList, "disk-1".toList, "5h".toList⟩).2 = none ↔
        "5h".toList ∈ timeRangeTokens)) :=
  ⟨⟨by decide,
    (DiskMetrics_timeRange_closed exampleConsts
      ⟨"l".toList, "p".toList, "disk-1".toList, "7d".toList⟩).2.1 (by decide)⟩,
   ⟨by decide,
    (DiskMetrics_timeRange_closed exampleConsts
      ⟨"l".toList, "p".toList, "disk-1".toList, "5h".toList⟩).2.1 (by decide)⟩⟩

/-! ## Claims on the service-account structures -/

theorem ServiceAccountCreate_messages (k : Consts) (m : ServiceAccountCreate) :
    validationMessages (ServiceAccountCreate.Valid k m).2 =
      (if m.Project ≠ [] then [] else ["project required".toList]) ++
      (if TrimSpace m.SID ≠ [] then
        (if k.ReValidSID (TrimSpace m.SID) = true then []
          else ["sid invalid ".toList ++ k.ReValidSIDStr]) ++
        (if 3 ≤ ((TrimSpace m.SID).length : Int) ∧ ((TrimSpace m.SID).length : Int) ≤ 20
          then [] else ["sid must have length between 3-20 characters".toList])
       else ["sid required".toList]) ++
      (if k.MinNameLength ≤ ((TrimSpace m.Name).length : Int) ∧
          ((TrimSpace m.Name).length : Int) ≤ 60 then []
        else ["name must have length between ".toList ++ FormatInt k.MinNameLength ++
          "-".toList ++ FormatInt 60 ++ " characters".toList]) := by
  by_cases hs : TrimSpace m.SID = []
  · simp [ServiceAccountCreate.Valid, validationMessages_WrapValidate, Must_errors,
      Must_snd, Validator.New, RuneCountInString, hs]
  · simp [ServiceAccountCreate.Valid, validationMessages_WrapValidate, Must_errors,
      Must_snd, Validator.New, RuneCountInString, hs]

theorem ServiceAccountUpdate_messages (k : Consts) (m : ServiceAccountUpdate) :
    validationMessages (ServiceAccountUpdate.Valid k m).2 =
      (if m.Project ≠ [] then [] else ["project required".toList]) ++
      (if TrimSpace m.SID ≠ [] then
        (if k.ReValidSID (TrimSpace m.SID) = true then []
          else ["sid invalid ".toList ++ k.ReValidSIDStr]) ++
        (if 3 ≤ ((TrimSpace m.SID).length : Int) ∧ ((TrimSpace m.SID).length : Int) ≤ 20
          then [] else ["sid must have length between 3-20 characters".toList])
       else ["sid required".toList]) ++
      (if k.MinNameLength ≤ ((TrimSpace m.Name).length : Int) ∧
          ((TrimSpace m.Name).length : Int) ≤ 60 then []
        else ["name must have length between ".toList ++ FormatInt k.MinNameLength ++
          "-".toList ++ FormatInt 60 ++ " characters".toList]) := by
  by_cases hs : TrimSpace m.SID = []
  · simp [ServiceAccountUpdate.Valid, validationMessages_WrapValidate, Must_errors,
      Must_snd, Validator.New, RuneCountInString, hs]
  · simp [ServiceAccountUpdate.Valid, validationMessages_WrapValidate, Must_errors,
      Must_snd, Validator.New, RuneCountInString, hs]

theorem ServiceAccountCreate_nil_iff_messages (k : Consts) (m : ServiceAccountCreate) :
    (ServiceAccountCreate.Valid k m).2 = none ↔
      validationMessages (ServiceAccountCreate.Valid k m).2 = [] := by
  simp only [ServiceAccountCreate.Valid, validationMessages_WrapValidate,
    WrapValidate_eq_none_iff]

/-- C11: `ServiceAccountCreate.Valid()` returns nil if and only if Project is non-empty,
the trimmed SID is non-empty, matches `ReValidSID` and has between 3 and 20 code points
inclusive, and the trimmed Name has between `MinNameLength` and 60 code points inclusive;
so, the other fields being valid and the SID matching the pattern, a SID of length 2 or
21 is rejected and a SID of length 3 or 20 is accepted. -/
theorem ServiceAccountCreate_Valid_nil_iff (k : Consts) (m : ServiceAccountCreate) :
    ((ServiceAccountCreate.Valid k m).2 = none ↔
      (m.Project ≠ [] ∧ TrimSpace m.SID ≠ [] ∧ k.ReValidSID (TrimSpace m.SID) = true ∧
       3 ≤ ((TrimSpace m.SID).length : Int) ∧ ((TrimSpace m.SID).length : Int) ≤ 20 ∧
       k.MinNameLength ≤ ((TrimSpace m.Name).length : Int) ∧
       ((TrimSpace m.Name).length : Int) ≤ 60)) ∧
    ((m.Project ≠ [] ∧ k.ReValidSID (TrimSpace m.SID) = true ∧
        k.MinNameLength ≤ ((TrimSpace m.Name).length : Int) ∧
        ((TrimSpace m.Name).length : Int) ≤ 60) →
      (((TrimSpace m.SID).length = 2 ∨ (TrimSpace m.SID).length = 21) →
        (ServiceAccountCreate.Valid k m).2 ≠ none) ∧
      (((TrimSpace m.SID).length = 3 ∨ (TrimSpace m.SID).length = 20) →
        (ServiceAccountCreate.Valid k m).2 = none)) := by
  have hiff : (ServiceAccountCreate.Valid k m).2 = none ↔
      (m.Project ≠ [] ∧ TrimSpace m.SID ≠ [] ∧ k.ReValidSID (TrimSpace m.SID) = true ∧
       3 ≤ ((TrimSpace m.SID).length : Int) ∧ ((TrimSpace m.SID).length : Int) ≤ 20 ∧
       k.MinNameLength ≤ ((TrimSpace m.Name).length : Int) ∧
       ((TrimSpace m.Name).length : Int) ≤ 60) := by
    rw [ServiceAccountCreate_nil_iff_messages, ServiceAccountCreate_messages]
    by_cases hs : TrimSpace m.SID = []
    · simp [hs]
    · simp only [ne_eq, hs, not_false_eq_true, if_true, List.append_eq_nil,
        ite_eq_left_iff, List.cons_ne_nil, imp_false, not_not, and_assoc, true_and]
  refine ⟨hiff, ?_⟩
  rintro ⟨hp, hm, hn1, hn2⟩
  constructor
  · intro hl h
    have := hiff.mp h
    omega
  · intro hl
    apply hiff.mpr
    have hne : TrimSpace m.SID ≠ [] := by
      intro e
      rw [e] at hl
      simp at hl
    refine ⟨hp, hne, hm, ?_, ?_, hn1, hn2⟩ <;> omega

/-- Witness of C11: pattern-valid SIDs of length 2 and 21 are rejected, of length 3 and
20 accepted. -/
theorem ServiceAccountCreate_Valid_nil_iff_witness :
    (ServiceAccountCreate.Valid exampleConsts
      ⟨"p".toList, "ab".toList, "acct".toList, []⟩).2 ≠ none ∧
    (ServiceAccountCreate.Valid exampleConsts
      ⟨"p".toList, "abcdefghijklmnopqrstu".toList, "acct".toList, []⟩).2 ≠ none ∧
    (ServiceAccountCreate.Valid exampleConsts
      ⟨"p".toList, "abc".toList, "acct".toList, []⟩).2 = none ∧
    (ServiceAccountCreate.Valid exampleConsts
      ⟨"p".toList, "abcdefghijklmnopqrst".toList, "acct".toList, []⟩).2 = none :=
  ⟨((ServiceAccountCreate_Valid_nil_iff exampleConsts
      ⟨"p".toList, "ab".toList, "acct".toList, []⟩).2 (by decide)).1 (by decide),
   ((ServiceAccountCreate_Valid_nil_iff exampleConsts
      ⟨"p".toList, "abcdefghijklmnopqrstu".toList, "acct".toList, []⟩).2
        (by decide)).1 (by decide),
   ((ServiceAccountCreate_Valid_nil_iff exampleConsts
      ⟨"p".toList, "abc".toList, "acct".toList, []⟩).2 (by decide)).2 (by decide),
   ((ServiceAccountCreate_Valid_nil_iff exampleConsts
      ⟨"p".toList, "abcdefghijklmnopqrst".toList, "acct".toList, []⟩).2
        (by decide)).2 (by decide)⟩

theorem ne_of_get?_ne {a b : List Char} (n : Nat) (h : a.get? n ≠ b.get? n) : a ≠ b := by
  intro e
  exact h (by rw [e])

theorem sid_messages_gated (k : Consts) (p s n : List Char) (msgs : List (List Char))
    (hmsgs : msgs =
      (if p ≠ [] then [] else ["project required".toList]) ++
      (if s ≠ [] then
        (if k.ReValidSID s = true then [] else ["sid invalid ".toList ++ k.ReValidSIDStr]) ++
        (if 3 ≤ (s.length : Int) ∧ (s.length : Int) ≤ 20
          then [] else ["sid must have length between 3-20 characters".toList])
       else ["sid required".toList]) ++
      (if k.MinNameLength ≤ (n.length : Int) ∧ (n.length : Int) ≤ 60 then []
        else ["name must have length between ".toList ++ FormatInt k.MinNameLength ++
          "-".toList ++ FormatInt 60 ++ " characters".toList])) :
    (s = [] →
      "sid required".toList ∈ msgs ∧
      ("sid invalid ".toList ++ k.ReValidSIDStr) ∉ msgs ∧
      "sid must have length between 3-20 characters".toList ∉ msgs) ∧
    (s ≠ [] →
      "sid required".toList ∉ msgs ∧
      (("sid invalid ".toList ++ k.ReValidSIDStr) ∈ msgs ↔ ¬ k.ReValidSID s = true) ∧
      ("sid must have length between 3-20 characters".toList ∈ msgs ↔
        ¬ (3 ≤ (s.length : Int) ∧ (s.length : Int) ≤ 20))) := by
  have r1 : "sid required".toList ≠ "project required".toList := by decide
  have r2 : "sid required".toList ≠ "sid invalid ".toList ++ k.ReValidSIDStr :=
    ne_of_get?_ne 4 (by simp)
  have r3 : "sid required".toList ≠ "sid must have length between 3-20 characters".toList := by
    decide
  have r4 : "sid required".toList ≠
      "name must have length between ".toList ++ FormatInt k.MinNameLength ++
        "-".toList ++ FormatInt 60 ++ " characters".toList := ne_of_head?_ne (by simp)
  have i1 : "sid invalid ".toList ++ k.ReValidSIDStr ≠ "project required".toList :=
    ne_of_head?_ne (by simp)
  have i3 : "sid invalid ".toList ++ k.ReValidSIDStr ≠
      "sid must have length between 3-20 characters".toList := ne_of_get?_ne 4 (by simp)
  have i4 : "sid invalid ".toList ++ k.ReValidSIDStr ≠
      "name must have length between ".toList ++ FormatInt k.MinNameLength ++
        "-".toList ++ FormatInt 60 ++ " characters".toList := ne_of_head?_ne (by simp)
  have l1 : "sid must have length between 3-20 characters".toList ≠
      "project required".toList := by decide
  have l4 : "sid must have length between 3-20 characters".toList ≠
      "name must have length between ".toList ++ FormatInt k.MinNameLength ++
        "-".toList ++ FormatInt 60 ++ " characters".toList := ne_of_head?_ne (by simp)
  subst hmsgs
  constructor
  · intro hs
    subst hs
    simp only [ne_eq, not_true_eq_false, if_false, List.mem_append, mem_ite_singleton,
      List.mem_singleton, r1, r4, i1, i4, l1, l4, r2.symm, r3.symm, and_false, false_or,
      or_false, not_false_eq_true, and_self, true_or, or_true]
  · intro hs
    simp only [ne_eq, hs, not_false_eq_true, if_true, List.mem_append, mem_ite_singleton,
      r1, r2, r3, r4, i1, i3, i4, l1, l4, i3.symm, and_false, false_or, or_false,
      and_true, true_and]

/-- C12: for `ServiceAccountCreate` and for `ServiceAccountUpdate`, when the trimmed SID is
empty the messages of `Valid()` contain "sid required" and neither the SID pattern message
nor the SID length message; when the trimmed SID is non-empty "sid required" is absent,
and the pattern message and the length message are each reported exactly when their rule
fails. -/
theorem ServiceAccount_sid_checks_gated (k : Consts) :
    (∀ m : ServiceAccountCreate,
      (TrimSpace m.SID = [] →
        "sid required".toList ∈ validationMessages (ServiceAccountCreate.Valid k m).2 ∧
        ("sid invalid ".toList ++ k.ReValidSIDStr) ∉
          validationMessages (ServiceAccountCreate.Valid k m).2 ∧
        "sid must have length between 3-20 characters".toList ∉
          validationMessages (ServiceAccountCreate.Valid k m).2) ∧
      (TrimSpace m.SID ≠ [] →
        "sid required".toList ∉ validationMessages (ServiceAccountCreate.Valid k m).2 ∧
        (("sid invalid ".toList ++ k.ReValidSIDStr) ∈
            validationMessages (ServiceAccountCreate.Valid k m).2 ↔
          ¬ k.ReValidSID (TrimSpace m.SID) = true) ∧
        ("sid must have length between 3-20 characters".toList ∈
            validationMessages (ServiceAccountCreate.Valid k m).2 ↔
          ¬ (3 ≤ ((TrimSpace m.SID).length : Int) ∧
             ((TrimSpace m.SID).length : Int) ≤ 20)))) ∧
    (∀ m : ServiceAccountUpdate,
      (TrimSpace m.SID = [] →
        "sid required".toList ∈ validationMessages (ServiceAccountUpdate.Valid k m).2 ∧
        ("sid invalid ".toList ++ k.ReValidSIDStr) ∉
          validationMessages (ServiceAccountUpdate.Valid k m).2 ∧
        "sid must have length between 3-20 characters".toList ∉
          validationMessages (ServiceAccountUpdate.Valid k m).2) ∧
      (TrimSpace m.SID ≠ [] →
        "sid required".toList ∉ validationMessages (ServiceAccountUpdate.Valid k m).2 ∧
        (("sid invalid ".toList ++ k.ReValidSIDStr) ∈
            validationMessages (ServiceAccountUpdate.Valid k m).2 ↔
          ¬ k.ReValidSID (TrimSpace m.SID) = true) ∧
        ("sid must have length between 3-20 characters".toList ∈
            validationMessages (ServiceAccountUpdate.Valid k m).2 ↔
          ¬ (3 ≤ ((TrimSpace m.SID).length : Int) ∧
             ((TrimSpace m.SID).length : Int) ≤ 20)))) := by
  constructor
  · intro m
    exact sid_messages_gated k m.Project (TrimSpace m.SID) (TrimSpace m.Name) _
      (ServiceAccountCreate_messages k m)
  · intro m
    exact sid_messages_gated k m.Project (TrimSpace m.SID) (TrimSpace m.Name) _
      (ServiceAccountUpdate_messages k m)

/-- Witness of C12: a `ServiceAccountCreate` with a blank SID and a `ServiceAccountUpdate`
with a non-blank one. -/
theorem ServiceAccount_sid_checks_gated_witness :
    (TrimSpace "  ".toList = [] ∧
      "sid required".toList ∈ validationMessages (ServiceAccountCreate.Valid exampleConsts
        ⟨"p".toList, "  ".toList, "acct".toList, []⟩).2 ∧
      ("sid invalid ".toList ++ exampleConsts.ReValidSIDStr) ∉
        validationMessages (ServiceAccountCreate.Valid exampleConsts
          ⟨"p".toList, "  ".toList, "acct".toList, []⟩).2 ∧
      "sid must have length between 3-20 characters".toList ∉
        validationMessages (ServiceAccountCreate.Valid exampleConsts
          ⟨"p".toList, "  ".toList, "acct".toList, []⟩).2) ∧
    (TrimSpace " A ".toList ≠ [] ∧
      "sid required".toList ∉ validationMessages (ServiceAccountUpdate.Valid exampleConsts
        ⟨"p".toList, " A ".toList, "acct".toList, []⟩).2 ∧
      (("sid invalid ".toList ++ exampleConsts.ReValidSIDStr) ∈
          validationMessages (ServiceAccountUpdate.Valid exampleConsts
            ⟨"p".toList, " A ".toList, "acct".toList, []⟩).2 ↔
        ¬ exampleConsts.ReValidSID (TrimSpace " A ".toList) = true) ∧
      ("sid must have length between 3-20 characters".toList ∈
          validationMessages (ServiceAccountUpdate.Valid exampleConsts
            ⟨"p".toList, " A ".toList, "acct".toList, []⟩).2 ↔
        ¬ (3 ≤ ((TrimSpace " A ".toList).length : Int) ∧
           ((TrimSpace " A ".toList).length : Int) ≤ 20))) :=
  ⟨⟨by decide,
    ((ServiceAccount_sid_checks_gated exampleConsts).1
      ⟨"p".toList, "  ".toList, "acct".toList, []⟩).1 (by decide)⟩,
   ⟨by decide,
    ((ServiceAccount_sid_checks_gated exampleConsts).2
      ⟨"p".toList, " A ".toList, "acct".toList, []⟩).2 (by decide)⟩⟩

/-! ## Claims on `age` -/

theorem tdiv_pos_iff (d c : Int) (hc : 0 < c) : 0 < d.tdiv c ↔ c ≤ d := by
  by_cases hd : 0 ≤ d
  · rw [Int.tdiv_eq_ediv hd (le_of_lt hc)]
    constructor
    · intro h
      have h1 : 1 ≤ d / c := h
      have := (Int.le_ediv_iff_mul_le hc).mp h1
      simpa using this
    · intro h
      have : 1 ≤ d / c := (Int.le_ediv_iff_mul_le hc).mpr (by simpa using h)
      exact this
  · have hneg : 0 ≤ -d := by omega
    have h1 : 0 ≤ (-d).tdiv c := Int.tdiv_nonneg hneg (le_of_lt hc)
    rw [Int.neg_tdiv] at h1
    constructor
    · intro h
      omega
    · intro h
      omega

theorem age_of_day (d : Int) (h : 24 * Hour ≤ d) :
    age d = FormatInt (d / (24 * Hour)) ++ "d".toList := by
  have hc : (0 : Int) < 24 * Hour := by decide
  have hd : 0 ≤ d := le_trans (le_of_lt hc) h
  have hpos : d.tdiv (24 * Hour) > 0 := (tdiv_pos_iff d _ hc).mpr h
  unfold age
  rw [if_pos hpos, Int.tdiv_eq_ediv hd (le_of_lt hc)]

theorem age_of_minute (d : Int) (h1 : Minute ≤ d) (h2 : d < 24 * Hour) :
    age d = FormatInt (d / Minute) ++ "m".toList := by
  have hc : (0 : Int) < 24 * Hour := by decide
  have hm : (0 : Int) < Minute := by decide
  have hd : 0 ≤ d := le_trans (le_of_lt hm) h1
  have hday : ¬ d.tdiv (24 * Hour) > 0 := by
    intro hp
    have := (tdiv_pos_iff d _ hc).mp hp
    omega
  have hpos : d.tdiv Minute > 0 := (tdiv_pos_iff d _ hm).mpr h1
  unfold age
  rw [if_neg hday, if_neg hday, if_pos hpos, Int.tdiv_eq_ediv hd (le_of_lt hm)]

theorem age_of_second (d : Int) (h1 : 0 ≤ d) (h2 : d < Minute) :
    age d = FormatInt (d / Second) ++ "s".toList := by
  have hc : (0 : Int) < 24 * Hour := by decide
  have hm : (0 : Int) < Minute := by decide
  have hs : (0 : Int) < Second := by decide
  have hlt : Minute < 24 * Hour := by decide
  have hday : ¬ d.tdiv (24 * Hour) > 0 := by
    intro hp
    have := (tdiv_pos_iff d _ hc).mp hp
    omega
  have hmin : ¬ d.tdiv Minute > 0 := by
    intro hp
    have := (tdiv_pos_iff d _ hm).mp hp
    omega
  unfold age
  rw [if_neg hday, if_neg hday, if_neg hmin, Int.tdiv_eq_ediv h1 (le_of_lt hs)]

theorem isInt64_ediv (d c : Int) (hd : 0 ≤ d) (hc : 0 < c) (h : isInt64 d) :
    isInt64 (d / c) := by
  unfold isInt64 at h ⊢
  have h0 : 0 ≤ d / c := Int.ediv_nonneg hd (le_of_lt hc)
  have h1 : d / c ≤ d := Int.ediv_le_self c hd
  constructor
  · have : (-(2 : Int) ^ 63) ≤ 0 := by norm_num
    omega
  · omega

/-- C13 at its failing input: for an elapsed duration of exactly two hours `age` returns
`120m`, not the `2h` that rendering the coarsest non-zero unit requires. -/
theorem age_two_hours_in_minutes :
    age (2 * Hour) = "120m".toList ∧
    age (2 * Hour) ≠ FormatInt (2 * Hour / Hour) ++ "h".toList ∧
    FormatInt (2 * Hour / Hour) ++ "h".toList = "2h".toList := by
  decide

/-- C14: for every elapsed duration `d ≥ 24h`, `age` returns the decimal text of
`floor(d / 24h)` followed by `d`, and for every `0 ≤ d < 1min` the decimal text of
`floor(d / 1s)` followed by `s`; exactly two days give `2d` and 45 seconds give `45s`. -/
theorem age_days_and_seconds (d : Int) (h : isInt64 d) :
    (24 * Hour ≤ d →
      CanonicalDecimal (d / (24 * Hour)) (FormatInt (d / (24 * Hour))) ∧
      age d = FormatInt (d / (24 * Hour)) ++ "d".toList) ∧
    ((0 ≤ d ∧ d < Minute) →
      CanonicalDecimal (d / Second) (FormatInt (d / Second)) ∧
      age d = FormatInt (d / Second) ++ "s".toList) ∧
    age (2 * (24 * Hour)) = "2d".toList ∧
    age (45 * Second) = "45s".toList := by
  refine ⟨?_, ?_, by decide, by decide⟩
  · intro hd
    have hc : (0 : Int) < 24 * Hour := by decide
    have h0 : 0 ≤ d := le_trans (le_of_lt hc) hd
    exact ⟨FormatInt_canonical _ (isInt64_ediv d _ h0 hc h), age_of_day d hd⟩
  · rintro ⟨h0, h1⟩
    have hs : (0 : Int) < Second := by decide
    exact ⟨FormatInt_canonical _ (isInt64_ediv d _ h0 hs h), age_of_second d h0 h1⟩

/-- Witness of C14 at three days and a half, and at 59.5 seconds. -/
theorem age_days_and_seconds_witness :
    (isInt64 (84 * Hour) ∧ 24 * Hour ≤ 84 * Hour ∧
      CanonicalDecimal (84 * Hour / (24 * Hour)) (FormatInt (84 * Hour / (24 * Hour))) ∧
      age (84 * Hour) = FormatInt (84 * Hour / (24 * Hour)) ++ "d".toList) ∧
    (isInt64 59500000000 ∧ ((0 : Int) ≤ 59500000000 ∧ 59500000000 < Minute) ∧
      CanonicalDecimal (59500000000 / Second) (FormatInt (59500000000 / Second)) ∧
      age 59500000000 = FormatInt (59500000000 / Second) ++ "s".toList) :=
  ⟨⟨by decide, by decide,
    (age_days_and_seconds (84 * Hour) (by decide)).1 (by decide)⟩,
   ⟨by decide, by decide,
    (age_days_and_seconds 59500000000 (by decide)).2.1 (by decide)⟩⟩

/-- C15: for every elapsed duration `d`, positive, zero or negative, `age` does not return
a text ending in `h`; for every `1h ≤ d < 24h` it returns the decimal text of
`floor(d / 1min)` followed by `m`; two hours give `120m`. -/
theorem age_hour_branch_unreachable (d : Int) :
    (age d).getLast? ≠ some 'h' ∧
    ((Hour ≤ d ∧ d < 24 * Hour) →
      CanonicalDecimal (d / Minute) (FormatInt (d / Minute)) ∧
      age d = FormatInt (d / Minute) ++ "m".toList) ∧
    age (2 * Hour) = "120m".toList := by
  refine ⟨?_, ?_, by decide⟩
  · unfold age
    by_cases h1 : d.tdiv (24 * Hour) > 0
    · rw [if_pos h1]
      simp
    · rw [if_neg h1, if_neg h1]
      by_cases h2 : d.tdiv Minute > 0
      · rw [if_pos h2]
        simp
      · rw [if_neg h2]
        simp
  · rintro ⟨h1, h2⟩
    have hm : (0 : Int) < Minute := by decide
    have hmh : Minute ≤ Hour := by decide
    have h0 : 0 ≤ d := by omega
    have hq : d / Minute ≤ d := Int.ediv_le_self _ h0
    have hq0 : 0 ≤ d / Minute := Int.ediv_nonneg h0 (le_of_lt hm)
    have hday : 24 * Hour < (2 : Int) ^ 63 := by decide
    have hi : isInt64 (d / Minute) := by
      unfold isInt64
      constructor
      · have : (-(2 : Int) ^ 63) ≤ 0 := by norm_num
        omega
      · omega
    exact ⟨FormatInt_canonical _ hi, age_of_minute d (le_trans hmh h1) h2⟩

/-- Witness of C15 at five hours. -/
theorem age_hour_branch_unreachable_witness :
    (Hour ≤ 5 * Hour ∧ 5 * Hour < 24 * Hour) ∧
    CanonicalDecimal (5 * Hour / Minute) (FormatInt (5 * Hour / Minute)) ∧
    age (5 * Hour) = FormatInt (5 * Hour / Minute) ++ "m".toList :=
  ⟨by decide, (age_hour_branch_unreachable (5 * Hour)).2.1 (by decide)⟩

/-! ## Claims relating the validations -/

/-- C16: on structures holding the same Location, Project, Name and Size,
`DiskUpdate.Valid()` and `DiskCreate.Valid()` return the same result (both nil, or errors
carrying the same messages in the same order) and leave the same field values behind. -/
theorem DiskUpdate_Valid_same_as_DiskCreate (k : Consts) (l p n : List Char) (s : Int) :
    (DiskUpdate.Valid k ⟨l, p, n, s⟩).2 = (DiskCreate.Valid k ⟨l, p, n, s⟩).2 ∧
    (DiskUpdate.Valid k ⟨l, p, n, s⟩).1.Location =
      (DiskCreate.Valid k ⟨l, p, n, s⟩).1.Location ∧
    (DiskUpdate.Valid k ⟨l, p, n, s⟩).1.Project =
      (DiskCreate.Valid k ⟨l, p, n, s⟩).1.Project ∧
    (DiskUpdate.Valid k ⟨l, p, n, s⟩).1.Name = (DiskCreate.Valid k ⟨l, p, n, s⟩).1.Name ∧
    (DiskUpdate.Valid k ⟨l, p, n, s⟩).1.Size = (DiskCreate.Valid k ⟨l, p, n, s⟩).1.Size :=
  ⟨rfl, rfl, rfl, rfl, rfl⟩

theorem TrimSpace_eq_self (n : List Char)
    (hfirst : ∀ c, n.head? = some c → isSpace c = false)
    (hlast : ∀ c, n.getLast? = some c → isSpace c = false) : TrimSpace n = n := by
  have h1 : n.dropWhile isSpace = n := by
    cases n with
    | nil => rfl
    | cons x xs =>
      have hx : isSpace x = false := hfirst x rfl
      simp [List.dropWhile_cons, hx]
  rw [TrimSpace_eq, h1, List.rdropWhile_eq_self_iff]
  intro hl
  have := hlast (n.getLast hl) (List.getLast?_eq_getLast n hl)
  simp [this]

/-- C17: whether `DiskCreate.Valid()` returns nil or an error, Location, Project and Size
are unchanged afterwards and Name is the original Name without its leading and trailing
white space; Name is unchanged when it neither starts nor ends with white space. -/
theorem DiskCreate_Valid_frame (k : Consts) (m : DiskCreate) :
    (DiskCreate.Valid k m).1.Location = m.Location ∧
    (DiskCreate.Valid k m).1.Project = m.Project ∧
    (DiskCreate.Valid k m).1.Size = m.Size ∧
    (DiskCreate.Valid k m).1.Name = TrimSpace m.Name ∧
    (((∀ c, m.Name.head? = some c → isSpace c = false) ∧
      (∀ c, m.Name.getLast? = some c → isSpace c = false)) →
      (DiskCreate.Valid k m).1 = m) := by
  refine ⟨rfl, rfl, rfl, rfl, ?_⟩
  rintro ⟨hf, hl⟩
  have : (DiskCreate.Valid k m).1 = { m with Name := TrimSpace m.Name } := rfl
  rw [this, TrimSpace_eq_self m.Name hf hl]

/-- Witness of C17: a name with an inner space only is left as it is, also when the
validation fails. -/
theorem DiskCreate_Valid_frame_witness :
    ((∀ c, "my disk".toList.head? = some c → isSpace c = false) ∧
      (∀ c, "my disk".toList.getLast? = some c → isSpace c = false)) ∧
    (DiskCreate.Valid exampleConsts ⟨"l".toList, [], "my disk".toList, 0⟩).1 =
      ⟨"l".toList, [], "my disk".toList, 0⟩ :=
  ⟨⟨by simp; decide, by simp; decide⟩,
   (DiskCreate_Valid_frame exampleConsts ⟨"l".toList, [], "my disk".toList, 0⟩).2.2.2.2
     ⟨by simp; decide, by simp; decide⟩⟩

/-- C18: for every byte sequence and every prior receiver value, if `UnmarshalJSON`
returns an error the receiver equals 0 afterwards, and the outcome of a call, successful
or not, does not depend on the prior value; the quoted text `abc` and the quoted decimal
`9223372036854775808` are such failing inputs. -/
theorem ID_UnmarshalJSON_resets_receiver (prior : Int) (b : List Char) :
    ((ID.UnmarshalJSON prior b).2 ≠ none → (ID.UnmarshalJSON prior b).1 = 0) ∧
    (∀ other : Int, ID.UnmarshalJSON other b = ID.UnmarshalJSON prior b) ∧
    ID.UnmarshalJSON prior (quoteChar :: ("abc".toList ++ [quoteChar])) =
      (0, some .numSyntaxErr) ∧
    ID.UnmarshalJSON prior (quoteChar :: ("9223372036854775808".toList ++ [quoteChar])) =
      (0, some .numRangeErr) := by
  refine ⟨?_, fun _ => rfl, rfl, rfl⟩
  unfold ID.UnmarshalJSON
  cases b with
  | nil => simp
  | cons c rest =>
    simp only
    split
    · split
      · simp
      · split
        · simp
        · split <;> simp
    · split <;> simp

/-- Witness of C18 at a quoted non-numeric text, with a prior value of 42. -/
theorem ID_UnmarshalJSON_resets_receiver_witness :
    (ID.UnmarshalJSON 42 (quoteChar :: ("abc".toList ++ [quoteChar]))).2 ≠ none ∧
    (ID.UnmarshalJSON 42 (quoteChar :: ("abc".toList ++ [quoteChar]))).1 = 0 :=
  ⟨by decide,
   (ID_UnmarshalJSON_resets_receiver 42 (quoteChar :: ("abc".toList ++ [quoteChar]))).1
     (by decide)⟩

theorem DiskDelete_Valid_fst (k : Consts) (m : DiskDelete) :
    (DiskDelete.Valid k m).1 = { m with Name := TrimSpace m.Name } := by
  simp only [DiskDelete.Valid]
  split <;> rfl

/-- C19: for each of `DiskCreate`, `DiskUpdate`, `DiskDelete`, `DiskMetrics`,
`ServiceAccountCreate` and `ServiceAccountUpdate`, calling `Valid()` on the structure left
by a first call returns the result of the first call and leaves that structure
unchanged. -/
theorem Valid_idempotent (k : Consts) :
    (∀ m : DiskCreate,
      (DiskCreate.Valid k (DiskCreate.Valid k m).1).2 = (DiskCreate.Valid k m).2 ∧
      (DiskCreate.Valid k (DiskCreate.Valid k m).1).1 = (DiskCreate.Valid k m).1) ∧
    (∀ m : DiskUpdate,
      (DiskUpdate.Valid k (DiskUpdate.Valid k m).1).2 = (DiskUpdate.Valid k m).2 ∧
      (DiskUpdate.Valid k (DiskUpdate.Valid k m).1).1 = (DiskUpdate.Valid k m).1) ∧
    (∀ m : DiskDelete,
      (DiskDelete.Valid k (DiskDelete.Valid k m).1).2 = (DiskDelete.Valid k m).2 ∧
      (DiskDelete.Valid k (DiskDelete.Valid k m).1).1 = (DiskDelete.Valid k m).1) ∧
    (∀ m : DiskMetrics,
      (DiskMetrics.Valid k (DiskMetrics.Valid k m).1).2 = (DiskMetrics.Valid k m).2 ∧
      (DiskMetrics.Valid k (DiskMetrics.Valid k m).1).1 = (DiskMetrics.Valid k m).1) ∧
    (∀ m : ServiceAccountCreate,
      (ServiceAccountCreate.Valid k (ServiceAccountCreate.Valid k m).1).2 =
        (ServiceAccountCreate.Valid k m).2 ∧
      (ServiceAccountCreate.Valid k (ServiceAccountCreate.Valid k m).1).1 =
        (ServiceAccountCreate.Valid k m).1) ∧
    (∀ m : ServiceAccountUpdate,
      (ServiceAccountUpdate.Valid k (ServiceAccountUpdate.Valid k m).1).2 =
        (ServiceAccountUpdate.Valid k m).2 ∧
      (ServiceAccountUpdate.Valid k (ServiceAccountUpdate.Valid k m).1).1 =
        (ServiceAccountUpdate.Valid k m).1) := by
  refine ⟨?_, ?_, ?_, ?_, ?_, ?_⟩
  · intro m
    have h : DiskCreate.Valid k (DiskCreate.Valid k m).1 = DiskCreate.Valid k m := by
      simp only [DiskCreate.Valid, TrimSpace_idempotent]
    exact ⟨by rw [h], by rw [h]⟩
  · intro m
    have h : DiskUpdate.Valid k (DiskUpdate.Valid k m).1 = DiskUpdate.Valid k m := by
      simp only [DiskUpdate.Valid, TrimSpace_idempotent]
    exact ⟨by rw [h], by rw [h]⟩
  · intro m
    have h : DiskDelete.Valid k (DiskDelete.Valid k m).1 = DiskDelete.Valid k m := by
      rw [DiskDelete_Valid_fst]
      simp only [DiskDelete.Valid, TrimSpace_idempotent]
    exact ⟨by rw [h], by rw [h]⟩
  · intro m
    have h : DiskMetrics.Valid k (DiskMetrics.Valid k m).1 = DiskMetrics.Valid k m := by
      simp only [DiskMetrics.Valid, TrimSpace_idempotent]
    exact ⟨by rw [h], by rw [h]⟩
  · intro m
    have h : ServiceAccountCreate.Valid k (ServiceAccountCreate.Valid k m).1 =
        ServiceAccountCreate.Valid k m := by
      simp only [ServiceAccountCreate.Valid, TrimSpace_idempotent]
    exact ⟨by rw [h], by rw [h]⟩
  · intro m
    have h : ServiceAccountUpdate.Valid k (ServiceAccountUpdate.Valid k m).1 =
        ServiceAccountUpdate.Valid k m := by
      simp only [ServiceAccountUpdate.Valid, TrimSpace_idempotent]
    exact ⟨by rw [h], by rw [h]⟩

theorem DiskCreate_accepts_iff (k : Consts) (m : DiskCreate) :
    (DiskCreate.Valid k m).2 = none ↔
      (m.Location ≠ [] ∧ m.Project ≠ [] ∧ k.ReValidName (TrimSpace m.Name) = true ∧
       k.MinNameLength ≤ ((TrimSpace m.Name).length : Int) ∧
       ((TrimSpace m.Name).length : Int) ≤ k.MaxNameLength ∧
       1 ≤ m.Size ∧ m.Size ≤ k.DiskMaxSize) := by
  rw [DiskCreate_nil_iff_messages, DiskCreate_messages]
  simp only [List.append_eq_nil, ite_eq_left_iff, List.cons_ne_nil, imp_false, not_not,
    and_assoc]

theorem DiskDelete_accepts_iff (k : Consts) (m : DiskDelete) :
    (DiskDelete.Valid k m).2 = none ↔
      (m.Location ≠ [] ∧ m.Project ≠ [] ∧ k.ReValidName (TrimSpace m.Name) = true ∧
       ((TrimSpace m.Name).length : Int) ≤ k.MaxNameLength) := by
  by_cases h : k.MaxNameLength < ((TrimSpace m.Name).length : Int)
  · have hn : ¬ ((TrimSpace m.Name).length : Int) ≤ k.MaxNameLength := not_le.mpr h
    simp [DiskDelete.Valid, RuneCountInString, h, hn]
  · have hn : ((TrimSpace m.Name).length : Int) ≤ k.MaxNameLength := not_lt.mp h
    simp only [DiskDelete.Valid, RuneCountInString, gt_iff_lt, if_neg h,
      WrapValidate_eq_none_iff, Must_errors, Validator.New, List.nil_append,
      List.append_eq_nil, ite_eq_left_iff, List.cons_ne_nil, imp_false, not_not,
      decide_eq_true_eq, and_assoc, hn, and_true]

theorem DiskMetrics_accepts_iff (k : Consts) (m : DiskMetrics) :
    (DiskMetrics.Valid k m).2 = none ↔
      (m.Location ≠ [] ∧ m.Project ≠ [] ∧ k.ReValidName (TrimSpace m.Name) = true ∧
       ((TrimSpace m.Name).length : Int) ≤ k.MaxNameLength ∧
       m.TimeRange ∈ timeRangeTokens) := by
  rw [DiskMetrics_nil_iff_messages, DiskMetrics_messages]
  simp only [List.append_eq_nil, ite_eq_left_iff, List.cons_ne_nil, imp_false, not_not,
    and_assoc]
  tauto

/-- C20, as stated, fails in its last part: with the pattern `^ a$` and
`MinNameLength = 3` there is a pattern-matching name shorter than `MinNameLength`, yet
`DiskDelete.Valid()` and `DiskMetrics.Valid()` accept no structure at all (a trimmed name
never starts with a space), so nothing can be deleted or measured that cannot be
created. -/
theorem short_matching_name_without_converse_failure :
    (∃ n : List Char, spacePatternConsts.ReValidName n = true ∧
      (n.length : Int) < spacePatternConsts.MinNameLength) ∧
    (∀ m : DiskDelete, (DiskDelete.Valid spacePatternConsts m).2 ≠ none) ∧
    (∀ m : DiskMetrics, (DiskMetrics.Valid spacePatternConsts m).2 ≠ none) := by
  have hno : ∀ n : List Char, spacePatternConsts.ReValidName (TrimSpace n) ≠ true := by
    intro n h
    have he : TrimSpace n = " a".toList := by
      simpa [spacePatternConsts] using h
    have hi := TrimSpace_idempotent n
    rw [he] at hi
    revert hi
    decide
  refine ⟨⟨" a".toList, by decide, by decide⟩, ?_, ?_⟩
  · intro m h
    exact hno m.Name ((DiskDelete_accepts_iff _ m).mp h).2.2.1
  · intro m h
    exact hno m.Name ((DiskMetrics_accepts_iff _ m).mp h).2.2.1

/-- C20, amended: whatever the pattern and the constants, when `DiskCreate.Valid()` returns
nil on (Location, Project, Name, Size), `DiskDelete.Valid()` returns nil on the same
(Location, Project, Name) and `DiskMetrics.Valid()` returns nil on them with each of the
seven time ranges; and the converse fails whenever some pattern-matching name without
surrounding white space and of at most `MaxNameLength` code points is shorter than
`MinNameLength`: with non-empty Location and Project such a name is accepted by
`DiskDelete` and `DiskMetrics` and rejected by `DiskCreate` for every Size. -/
theorem created_can_be_deleted_and_measured (k : Consts) (l p n : List Char) (s : Int) :
    ((DiskCreate.Valid k ⟨l, p, n, s⟩).2 = none →
      (DiskDelete.Valid k ⟨l, p, n⟩).2 = none ∧
      ∀ t ∈ timeRangeTokens, (DiskMetrics.Valid k ⟨l, p, n, t⟩).2 = none) ∧
    ((l ≠ [] ∧ p ≠ [] ∧ TrimSpace n = n ∧ k.ReValidName n = true ∧
        (n.length : Int) < k.MinNameLength ∧ (n.length : Int) ≤ k.MaxNameLength) →
      (DiskDelete.Valid k ⟨l, p, n⟩).2 = none ∧
      (∀ t ∈ timeRangeTokens, (DiskMetrics.Valid k ⟨l, p, n, t⟩).2 = none) ∧
      ∀ s' : Int, (DiskCreate.Valid k ⟨l, p, n, s'⟩).2 ≠ none) := by
  constructor
  · intro h
    obtain ⟨h1, h2, h3, _, h5, _, _⟩ := (DiskCreate_accepts_iff k ⟨l, p, n, s⟩).mp h
    refine ⟨(DiskDelete_accepts_iff k ⟨l, p, n⟩).mpr ⟨h1, h2, h3, h5⟩, ?_⟩
    intro t ht
    exact (DiskMetrics_accepts_iff k ⟨l, p, n, t⟩).mpr ⟨h1, h2, h3, h5, ht⟩
  · rintro ⟨h1, h2, ht, hm, hshort, hmax⟩
    refine ⟨?_, ?_, ?_⟩
    · apply (DiskDelete_accepts_iff k ⟨l, p, n⟩).mpr
      simp only [ht]
      exact ⟨h1, h2, hm, hmax⟩
    · intro t hin
      apply (DiskMetrics_accepts_iff k ⟨l, p, n, t⟩).mpr
      simp only [ht]
      exact ⟨h1, h2, hm, hmax, hin⟩
    · intro s' h
      have := (DiskCreate_accepts_iff k ⟨l, p, n, s'⟩).mp h
      simp only [ht] at this
      omega

/-- Witness of the amended C20: the created disk `abc` can be deleted and measured; the
name `ab` can be deleted and measured but not created. -/
theorem created_can_be_deleted_and_measured_witness :
    ((DiskCreate.Valid exampleConsts ⟨"l".toList, "p".toList, "abc".toList, 5⟩).2 = none ∧
      (DiskDelete.Valid exampleConsts ⟨"l".toList, "p".toList, "abc".toList⟩).2 = none ∧
      ∀ t ∈ timeRangeTokens,
        (DiskMetrics.Valid exampleConsts ⟨"l".toList, "p".toList, "abc".toList, t⟩).2 =
          none) ∧
    (("l".toList ≠ [] ∧ "p".toList ≠ [] ∧ TrimSpace "ab".toList = "ab".toList ∧
        exampleConsts.ReValidName "ab".toList = true ∧
        (("ab".toList.length : Nat) : Int) < exampleConsts.MinNameLength ∧
        (("ab".toList.length : Nat) : Int) ≤ exampleConsts.MaxNameLength) ∧
      (DiskDelete.Valid exampleConsts ⟨"l".toList, "p".toList, "ab".toList⟩).2 = none ∧
      (∀ t ∈ timeRangeTokens,
        (DiskMetrics.Valid exampleConsts ⟨"l".toList, "p".toList, "ab".toList, t⟩).2 =
          none) ∧
      ∀ s' : Int,
        (DiskCreate.Valid exampleConsts ⟨"l".toList, "p".toList, "ab".toList, s'⟩).2 ≠
          none) :=
  ⟨⟨by decide,
    (created_can_be_deleted_and_measured exampleConsts
      "l".toList "p".toList "abc".toList 5).1 (by decide)⟩,
   ⟨by decide,
    (created_can_be_deleted_and_measured exampleConsts
      "l".toList "p".toList "ab".toList 5).2 (by decide)⟩⟩

end Api
